import Mathlib

/-!
# PELX: header validation, pixel-stream expansion and container codec

A shallow embedding of `pelx.h` (header validation `pelx_sanitize_header_f`, the
pixel-stream expansion `pelx_to_png_f`, and the container codec `pelx_decode_pelx_f` and
`pelx_encode_pelx_f`) together with the properties proved about it.

Conventions of the embedding.

* Machine integers (`uint8_t`, `uint16_t`, `uint32_t`, `size_t`) are natural numbers.
  `size_t` is taken to be 64 bits wide, so the product
  `(size_t)width * height * png_channels` of two 16-bit values and an 8-bit value
  never wraps and is written as a plain product.
* A byte buffer reached through a pointer is the list of the bytes it holds.  A read past
  the end of such a list is undefined behaviour in C and is reported as a `pelx_fault`.
* The output buffer of `pelx_to_png_f` is written strictly left to right
  (`out_ptr[out_pos++] = b`), so it is represented by the list of the bytes stored so
  far and `out_pos` is the length of that list.  A store at or beyond
  `output_buffer_size` is reported as a `pelx_fault`.
* A file is the list of its bytes.  A stream opened for reading is that list with a
  position indicator; a stream opened for writing is the list of the bytes written so
  far.  Opening a file and allocating memory may fail, which the functions take as
  boolean arguments; seeking, telling and writing are taken to succeed.
-/

namespace Pelx

/-! ## Data model (pelx.h, lines 73 to 143) -/

/-- Tag of a void pixel, `PELX_tag_void`. -/
def PELX_tag_void : Nat := 0x00

/-- Tag of a literal true-colour pixel, `PELX_tag_true`. -/
def PELX_tag_true : Nat := 0x01

/-- Tag of a palette reference, `PELX_tag_pale`. -/
def PELX_tag_pale : Nat := 0x02

/-- The struct `pelx_header_t`.  The arrays `magic` and `reserved` are byte lists. -/
structure pelx_header_t where
  magic : List Nat
  header_size : Nat
  palette_offset : Nat
  width : Nat
  height : Nat
  palette_channel_count : Nat
  true_channel_count : Nat
  palette_count : Nat
  reserved : List Nat
deriving DecidableEq, Repr

/-- The struct `pelx_palette_entry_t`. -/
structure pelx_palette_entry_t where
  r : Nat
  g : Nat
  b : Nat
  a : Nat
deriving DecidableEq, Repr, Inhabited

/-- The anonymous struct `body` of `pelx_file_data_t`: a 16-bit `size` and the bytes that
`data` points to. -/
structure pelx_body_t where
  size : Nat
  data : List Nat
deriving DecidableEq, Repr

/-- The struct `pelx_file_data_t`. -/
structure pelx_file_data_t where
  header : pelx_header_t
  body : pelx_body_t
deriving DecidableEq, Repr

/-- The enum `pelx_result_t`, constructors in declaration order. -/
inductive pelx_result_t where
  | success
  | io_error
  | memory_allocation_failed
  | invalid_png_channels
  | mismatched_palettes
  | invalid_data_format
  | header_mismatched_magic_number
  | header_invalid_size
  | header_invalid_palette_count
  | header_invalid_true_channels
  | header_invalid_palette_channels
deriving DecidableEq, Repr

/-- Behaviour that C leaves undefined, or exhaustion of the iteration budget of the
embedded loop. -/
inductive pelx_fault where
  | body_read
  | palette_read
  | buffer_write
  | out_of_fuel
deriving DecidableEq, Repr

deriving instance DecidableEq for Except

/-! ## pelx_sanitize_header_f (pelx.h, lines 256 to 295) -/

/-- The five bytes that `memcmp` compares `header->magic` with: the first five bytes of
the string literal "PELX\0". -/
def PELX_magic : List Nat := [0x50, 0x45, 0x4C, 0x58, 0x00]

/-- The function `pelx_sanitize_header_f`.  The argument is `none` for a NULL pointer.
The result is the returned kind together with the header the pointer designates after
the call; the body contains no store through `header`. -/
def pelx_sanitize_header_f (header : Option pelx_header_t) :
    pelx_result_t × Option pelx_header_t :=
  match header with
  | none => (pelx_result_t.io_error, none)
  | some h =>
    if h.magic ≠ PELX_magic then
      (pelx_result_t.header_mismatched_magic_number, some h)
    else
      let width := h.width
      let height := h.height
      let true_channels := h.true_channel_count
      let palette_channels := h.palette_channel_count
      let palette_count := h.palette_count
      if width = 0 ∨ height = 0 then
        (pelx_result_t.header_invalid_size, some h)
      else if true_channels ≠ 3 ∧ true_channels ≠ 4 then
        (pelx_result_t.header_invalid_true_channels, some h)
      else if palette_channels ≠ 3 ∧ palette_channels ≠ 4 then
        (pelx_result_t.header_invalid_palette_channels, some h)
      else if palette_count = 0 then
        (pelx_result_t.header_invalid_palette_count, some h)
      else
        (pelx_result_t.success, some h)

/-! ## pelx_to_png_f (pelx.h, lines 297 to 437) -/

/-- The cursors of the loop of `pelx_to_png_f`: `src_pos`, and the bytes stored so far
in the output buffer (`out_pos` is their number). -/
structure to_png_state where
  src_pos : Nat
  out : List Nat
deriving DecidableEq, Repr

/-- The write cursor `out_pos`. -/
def to_png_state.out_pos (s : to_png_state) : Nat := s.out.length

/-- Where control goes after the loop body, or after the loop: on to the next statement
with the given cursors, or out of the function through one of the error returns, each of
which frees the buffer and clears the handle first. -/
inductive to_png_flow where
  | next (s : to_png_state)
  | ret (r : pelx_result_t)
deriving DecidableEq, Repr

/-- The read `src[pos]`. -/
def read_src (src : List Nat) (pos : Nat) : Except pelx_fault Nat :=
  match src[pos]? with
  | some b => Except.ok b
  | none => Except.error pelx_fault.body_read

/-- The read `palette_entries[palette_index]`. -/
def read_palette (palette_entries : List pelx_palette_entry_t) (palette_index : Nat) :
    Except pelx_fault pelx_palette_entry_t :=
  match palette_entries[palette_index]? with
  | some e => Except.ok e
  | none => Except.error pelx_fault.palette_read

/-- The store `out_ptr[out_pos++] = b` into a buffer of `output_buffer_size` bytes. -/
def write_out (output_buffer_size : Nat) (out : List Nat) (b : Nat) :
    Except pelx_fault (List Nat) :=
  if out.length < output_buffer_size then Except.ok (out ++ [b])
  else Except.error pelx_fault.buffer_write

/-- One execution of the body of the while loop (lines 339 to 423). -/
def to_png_body (src : List Nat) (src_size output_buffer_size : Nat)
    (true_channels palette_channels palette_count : Nat)
    (palette_entries : List pelx_palette_entry_t) (png_channels : Nat)
    (s : to_png_state) : Except pelx_fault to_png_flow := do
  let tag ← read_src src s.src_pos
  let src_pos := s.src_pos + 1
  if tag = PELX_tag_void then
    let out ← write_out output_buffer_size s.out 0x00
    let out ← write_out output_buffer_size out 0x00
    let out ← write_out output_buffer_size out 0x00
    if png_channels = 4 then
      let out ← write_out output_buffer_size out 0x00
      pure (to_png_flow.next ⟨src_pos, out⟩)
    else
      pure (to_png_flow.next ⟨src_pos, out⟩)
  else if tag = PELX_tag_true then
    if src_pos + true_channels > src_size then
      pure (to_png_flow.ret pelx_result_t.io_error)
    else
      let r ← read_src src src_pos
      let out ← write_out output_buffer_size s.out r
      let g ← read_src src (src_pos + 1)
      let out ← write_out output_buffer_size out g
      let b ← read_src src (src_pos + 2)
      let out ← write_out output_buffer_size out b
      let src_pos := src_pos + 3
      if png_channels = 4 then
        if true_channels = 4 then
          let a ← read_src src src_pos
          let out ← write_out output_buffer_size out a
          pure (to_png_flow.next ⟨src_pos + 1, out⟩)
        else
          let out ← write_out output_buffer_size out 0xFF
          pure (to_png_flow.next ⟨src_pos, out⟩)
      else
        if true_channels = 4 then
          pure (to_png_flow.next ⟨src_pos + 1, out⟩)
        else
          pure (to_png_flow.next ⟨src_pos, out⟩)
  else if tag = PELX_tag_pale then
    if src_pos + 1 > src_size then
      pure (to_png_flow.ret pelx_result_t.io_error)
    else
      let palette_index ← read_src src src_pos
      let src_pos := src_pos + 1
      if palette_index ≥ palette_count then
        pure (to_png_flow.ret pelx_result_t.io_error)
      else
        let entry ← read_palette palette_entries palette_index
        let out ← write_out output_buffer_size s.out entry.r
        let out ← write_out output_buffer_size out entry.g
        let out ← write_out output_buffer_size out entry.b
        if png_channels = 4 then
          if palette_channels = 4 then
            let out ← write_out output_buffer_size out entry.a
            pure (to_png_flow.next ⟨src_pos, out⟩)
          else
            let out ← write_out output_buffer_size out 0xFF
            pure (to_png_flow.next ⟨src_pos, out⟩)
        else
          pure (to_png_flow.next ⟨src_pos, out⟩)
  else
    pure (to_png_flow.ret pelx_result_t.invalid_data_format)

/-- The while loop (lines 337 to 424), run for at most `fuel` iterations.  The result
`next s` carries the cursors with which the loop is left through its condition. -/
def to_png_loop (src : List Nat) (src_size output_buffer_size : Nat)
    (true_channels palette_channels palette_count : Nat)
    (palette_entries : List pelx_palette_entry_t) (png_channels : Nat) :
    Nat → to_png_state → Except pelx_fault to_png_flow
  | fuel, s =>
    if s.out_pos < output_buffer_size ∧ s.src_pos < src_size then
      match fuel with
      | 0 => Except.error pelx_fault.out_of_fuel
      | fuel + 1 =>
        match to_png_body src src_size output_buffer_size true_channels palette_channels
            palette_count palette_entries png_channels s with
        | Except.error e => Except.error e
        | Except.ok (to_png_flow.ret r) => Except.ok (to_png_flow.ret r)
        | Except.ok (to_png_flow.next s') =>
          to_png_loop src src_size output_buffer_size true_channels palette_channels
            palette_count palette_entries png_channels fuel s'
    else
      Except.ok (to_png_flow.next s)

/-- The function `pelx_to_png_f`.

The pointers `pelx_data`, `*pelx_data`, `palette_entries` and `png_buffer` are taken to
be non-NULL, so the guard of line 301 is not entered.  `malloc_ok` tells whether the
`malloc` of line 324 returns a buffer.  `png_buffer` is the value of the handle
`*png_buffer` before the call (`none` for NULL, otherwise the contents of the buffer it
points to); the result pairs the returned kind with the value of the handle after the
call.  Every iteration of the loop advances `src_pos`, so `src_size` iterations are
enough; a loop that needed more would end in `pelx_fault.out_of_fuel`. -/
def pelx_to_png_f (malloc_ok : Bool) (pelx_data : pelx_file_data_t)
    (palette_count : Nat) (palette_entries : List pelx_palette_entry_t)
    (png_channels : Nat) (png_buffer : Option (List Nat)) :
    Except pelx_fault (pelx_result_t × Option (List Nat)) :=
  if png_channels ≠ 3 ∧ png_channels ≠ 4 then
    Except.ok (pelx_result_t.invalid_png_channels, png_buffer)
  else
    let result := (pelx_sanitize_header_f (some pelx_data.header)).1
    if result ≠ pelx_result_t.success then
      Except.ok (result, png_buffer)
    else
      let width := pelx_data.header.width
      let height := pelx_data.header.height
      let true_channels := pelx_data.header.true_channel_count
      let palette_channels := pelx_data.header.palette_channel_count
      let output_buffer_size := width * height * png_channels
      if malloc_ok = false then
        Except.ok (pelx_result_t.memory_allocation_failed, none)
      else
        let src := pelx_data.body.data
        let src_size := pelx_data.body.size
        match to_png_loop src src_size output_buffer_size true_channels palette_channels
            palette_count palette_entries png_channels src_size ⟨0, []⟩ with
        | Except.error e => Except.error e
        | Except.ok (to_png_flow.ret r) => Except.ok (r, none)
        | Except.ok (to_png_flow.next s) =>
          if s.out_pos ≠ output_buffer_size then
            Except.ok (pelx_result_t.invalid_data_format, none)
          else
            Except.ok (pelx_result_t.success, some s.out)

/-! ## The cursors with which the iterations of the loop start -/

/-- The cursors with which iteration `k` (counted from 0) of the while loop of
`pelx_to_png_f` starts: `none` when the loop does not get that far, because its
condition fails or an earlier iteration leaves the function or faults. -/
def to_png_iteration (src : List Nat) (src_size output_buffer_size : Nat)
    (true_channels palette_channels palette_count : Nat)
    (palette_entries : List pelx_palette_entry_t) (png_channels : Nat) :
    Nat → Option to_png_state
  | 0 =>
    if (0 : Nat) < output_buffer_size ∧ (0 : Nat) < src_size then some ⟨0, []⟩ else none
  | k + 1 =>
    match to_png_iteration src src_size output_buffer_size true_channels palette_channels
        palette_count palette_entries png_channels k with
    | none => none
    | some s =>
      match to_png_body src src_size output_buffer_size true_channels palette_channels
          palette_count palette_entries png_channels s with
      | Except.ok (to_png_flow.next s') =>
        if s'.out_pos < output_buffer_size ∧ s'.src_pos < src_size then some s' else none
      | _ => none

/-! ## Reading and writing files (pelx.h, lines 176 to 232) -/

/-- A stream opened for reading: the bytes of the file and the position indicator. -/
structure FILE where
  content : List Nat
  pos : Nat
deriving DecidableEq, Repr

/-- The call `fread(buf, 1, n, fp)` on a stream opened for reading: the bytes obtained,
at most `n` and fewer only at the end of the file, and the stream after the call. -/
def fread (n : Nat) (fp : FILE) : List Nat × FILE :=
  let buf := (fp.content.drop fp.pos).take n
  (buf, { fp with pos := fp.pos + buf.length })

/-- The call `fwrite(buf, 1, n, fp)` on a stream opened for writing, which is the list
of the bytes written so far: the count returned and the stream after the call.  The
first `n` bytes of `buf` are appended; writes are taken never to fall short. -/
def fwrite (buf : List Nat) (n : Nat) (fp : List Nat) : Nat × List Nat :=
  (n, fp ++ buf.take n)

/-- The function `pelx_write_uint8_f`. -/
def pelx_write_uint8_f (fp : List Nat) (value : Nat) : List Nat :=
  (fwrite [value] 1 fp).2

/-- The function `pelx_write_uint16_f`. -/
def pelx_write_uint16_f (fp : List Nat) (value : Nat) : List Nat :=
  (fwrite [(value >>> 8) &&& 0xFF, value &&& 0xFF] 2 fp).2

/-- The function `pelx_write_uint32_f`. -/
def pelx_write_uint32_f (fp : List Nat) (value : Nat) : List Nat :=
  (fwrite [(value >>> 24) &&& 0xFF, (value >>> 16) &&& 0xFF, (value >>> 8) &&& 0xFF,
    value &&& 0xFF] 4 fp).2

/-- The function `pelx_read_uint8_f`: `none` for the return value -1, otherwise the value
stored through `value` and the stream after the call. -/
def pelx_read_uint8_f (fp : FILE) : Option (Nat × FILE) :=
  match fread 1 fp with
  | ([b], fp') => some (b, fp')
  | _ => none

/-- The function `pelx_read_uint16_f`.  The bytes of a file are below 256, so the value
fits the 16 bits of `*value`. -/
def pelx_read_uint16_f (fp : FILE) : Option (Nat × FILE) :=
  match fread 2 fp with
  | ([b0, b1], fp') => some ((b0 <<< 8) ||| b1, fp')
  | _ => none

/-- The function `pelx_read_uint32_f`.  The bytes of a file are below 256, so the value
fits the 32 bits of `*value`. -/
def pelx_read_uint32_f (fp : FILE) : Option (Nat × FILE) :=
  match fread 4 fp with
  | ([b0, b1, b2, b3], fp') => some ((b0 <<< 24) ||| (b1 <<< 16) ||| (b2 <<< 8) ||| b3, fp')
  | _ => none

/-! ## pelx_decode_pelx_f (pelx.h, lines 439 to 551) -/

/-- The reads of the header fields (lines 456 to 508): `none` when one of them falls
short, which sends control to `return_failure`. -/
def decode_pelx_header (fp : FILE) : Option (pelx_header_t × FILE) := do
  let (magic, fp) := fread 5 fp
  if magic.length ≠ 5 then none
  let (header_size, fp) ← pelx_read_uint32_f fp
  let (palette_offset, fp) ← pelx_read_uint32_f fp
  let (width, fp) ← pelx_read_uint16_f fp
  let (height, fp) ← pelx_read_uint16_f fp
  let (palette_channel_count, fp) ← pelx_read_uint8_f fp
  let (true_channel_count, fp) ← pelx_read_uint8_f fp
  let (palette_count, fp) ← pelx_read_uint16_f fp
  let (reserved, fp) := fread 5 fp
  if reserved.length ≠ 5 then none
  pure ({ magic := magic, header_size := header_size, palette_offset := palette_offset,
          width := width, height := height,
          palette_channel_count := palette_channel_count,
          true_channel_count := true_channel_count,
          palette_count := palette_count, reserved := reserved }, fp)

/-- The function `pelx_decode_pelx_f`.

`file` is what `fopen` finds: `none` when the file cannot be opened, otherwise its
bytes.  The pointer `pelx` is taken to be non-NULL.  `malloc_file_ok` and
`malloc_body_ok` tell whether the `malloc` of line 447 and of line 523 return a buffer.
`pelx` is the value of the handle `*pelx` before the call and the result pairs the
returned kind with its value after the call.  `fseek` and `ftell` are taken to
succeed, `long` and `size_t` to be 64 bits wide. -/
def pelx_decode_pelx_f (file : Option (List Nat)) (malloc_file_ok malloc_body_ok : Bool)
    (pelx : Option pelx_file_data_t) : pelx_result_t × Option pelx_file_data_t :=
  match file with
  | none => (pelx_result_t.io_error, pelx)
  | some content =>
    if malloc_file_ok = false then
      (pelx_result_t.memory_allocation_failed, pelx)
    else
      match decode_pelx_header ⟨content, 0⟩ with
      | none => (pelx_result_t.invalid_data_format, pelx)
      | some (header, fp) =>
        let file_size := fp.content.length
        if header.header_size > file_size % 2 ^ 32 then
          (pelx_result_t.invalid_data_format, pelx)
        else
          let raw_data_size := file_size - header.header_size
          if malloc_body_ok = false then
            (pelx_result_t.invalid_data_format, pelx)
          else
            let size := raw_data_size % 2 ^ 16
            let fp : FILE := { fp with pos := header.header_size }
            let (data, _) := fread raw_data_size fp
            if data.length ≠ raw_data_size then
              (pelx_result_t.invalid_data_format, pelx)
            else
              (pelx_result_t.success,
                some { header := header, body := { size := size, data := data } })

/-! ## pelx_encode_pelx_f (pelx.h, lines 576 to 616) -/

/-- The function `pelx_encode_pelx_f`.

`fopen_ok` tells whether `fopen` opens the file for writing; the pointer `input_data`
is taken to be non-NULL.  The result pairs the returned kind with the file after the
call: `none` when it was not opened, otherwise the bytes written.  Reading `body.size`
bytes from a shorter body buffer is undefined behaviour and reported as a fault. -/
def pelx_encode_pelx_f (fopen_ok : Bool) (input_data : pelx_file_data_t) :
    Except pelx_fault (pelx_result_t × Option (List Nat)) :=
  if fopen_ok = false then
    Except.ok (pelx_result_t.io_error, none)
  else
    let (written, fp) := fwrite input_data.header.magic 5 []
    if written ≠ 5 then
      Except.ok (pelx_result_t.io_error, some fp)
    else
      let fp := pelx_write_uint32_f fp input_data.header.header_size
      let fp := pelx_write_uint32_f fp input_data.header.palette_offset
      let fp := pelx_write_uint16_f fp input_data.header.width
      let fp := pelx_write_uint16_f fp input_data.header.height
      let fp := pelx_write_uint8_f fp input_data.header.palette_channel_count
      let fp := pelx_write_uint8_f fp input_data.header.true_channel_count
      let fp := pelx_write_uint16_f fp input_data.header.palette_count
      let (written, fp) := fwrite input_data.header.reserved 5 fp
      if written ≠ 5 then
        Except.ok (pelx_result_t.io_error, some fp)
      else if input_data.body.data.length < input_data.body.size then
        Except.error pelx_fault.body_read
      else
        let (written, fp) := fwrite input_data.body.data input_data.body.size fp
        if written ≠ input_data.body.size then
          Except.ok (pelx_result_t.io_error, some fp)
        else
          Except.ok (pelx_result_t.success, some fp)

/-! ## Example data -/

/-- A header that passes validation, with the given dimensions and channel counts. -/
def mk_header (width height palette_channels true_channels palette_count : Nat) :
    pelx_header_t :=
  { magic := PELX_magic, header_size := 26, palette_offset := 26,
    width := width, height := height,
    palette_channel_count := palette_channels, true_channel_count := true_channels,
    palette_count := palette_count, reserved := [0, 0, 0, 0, 0] }

/-- The overworld palette of the example program. -/
def overworld_palette : List pelx_palette_entry_t :=
  [⟨0xEA, 0x9E, 0x22, 0xFF⟩, ⟨0xB5, 0x31, 0x20, 0xFF⟩]

/-- The two-pixel container of the concrete scenario: a palette reference to entry 0
followed by the literal pixel 11 22 33 44. -/
def scenario_file : pelx_file_data_t :=
  { header := mk_header 2 1 4 4 2,
    body := { size := 7, data := [0x02, 0x00, 0x01, 0x11, 0x22, 0x33, 0x44] } }

/-- A one-pixel container whose body is a void record followed by one more byte. -/
def padded_file : pelx_file_data_t :=
  { header := mk_header 1 1 4 4 2, body := { size := 2, data := [0x00, 0x00] } }

/-- A one-pixel container whose body is a void record followed by the byte 07, which is
no tag. -/
def late_bad_tag_file : pelx_file_data_t :=
  { header := mk_header 1 1 4 4 2, body := { size := 2, data := [0x00, 0x07] } }

/-- A two-pixel container whose body is a void record followed by the byte 07. -/
def bad_tag_file : pelx_file_data_t :=
  { header := mk_header 2 1 4 4 2, body := { size := 2, data := [0x00, 0x07] } }

/-- A two-pixel container whose body holds a single void record. -/
def short_file : pelx_file_data_t :=
  { header := mk_header 2 1 4 4 2, body := { size := 1, data := [0x00] } }

/-- A one-pixel container whose body is a palette reference to entry 5. -/
def bad_index_file : pelx_file_data_t :=
  { header := mk_header 1 1 4 4 2, body := { size := 2, data := [0x02, 0x05] } }

/-- A one-pixel container whose body is a palette tag with no index byte after it. -/
def truncated_file : pelx_file_data_t :=
  { header := mk_header 1 1 4 4 2, body := { size := 1, data := [0x02] } }

/-- A 256 by 256 container whose body is 65536 void tags, with `body.size` recorded as
`pelx_decode_pelx_f` and the example program record it: the body length cast to
`uint16_t`. -/
def large_void_file : pelx_file_data_t :=
  { header := mk_header 256 256 4 4 2,
    body := { size := (256 * 256) % 65536, data := List.replicate (256 * 256) 0x00 } }

/-- A header with width 0 whose magic bytes are all zero. -/
def zero_width_bad_magic_header : pelx_header_t :=
  { magic := [0x00, 0x00, 0x00, 0x00, 0x00], header_size := 26, palette_offset := 26,
    width := 0, height := 16, palette_channel_count := 4, true_channel_count := 4,
    palette_count := 2, reserved := [0, 0, 0, 0, 0] }

/-- A header with the right magic bytes, width 0, and every other field invalid. -/
def zero_width_header : pelx_header_t :=
  { magic := PELX_magic, header_size := 0, palette_offset := 0,
    width := 0, height := 0, palette_channel_count := 7, true_channel_count := 9,
    palette_count := 0, reserved := [1, 2, 3, 4, 5] }

/-! ## Well-formed pixel streams, as the specification describes them -/

/-- One record of the pixel stream: a void tag, a true-colour tag with its payload, or a
palette tag with its index byte. -/
inductive pelx_record where
  | void
  | true_color (payload : List Nat)
  | pale (index : Nat)
deriving DecidableEq, Repr

/-- The bytes of a record in the stream: the tag followed by the payload. -/
def pelx_record.bytes : pelx_record → List Nat
  | pelx_record.void => [0x00]
  | pelx_record.true_color payload => 0x01 :: payload
  | pelx_record.pale index => [0x02, index]

/-- A record is well formed for a header with `true_channels` true-colour channels and a
palette table of `palette_len` entries when a true-colour payload has exactly
`true_channels` bytes and a palette index is below `palette_len`. -/
def pelx_record.well_formed (true_channels palette_len : Nat) : pelx_record → Prop
  | pelx_record.void => True
  | pelx_record.true_color payload => payload.length = true_channels
  | pelx_record.pale index => index < palette_len

/-- A record that the loop can expand with palette count `palette_count` and the table
`palette_entries`: a true-colour payload has `true_channels` bytes, and a palette index
is below `palette_count` and inside the table. -/
def pelx_record.expandable (true_channels palette_count : Nat)
    (palette_entries : List pelx_palette_entry_t) : pelx_record → Prop
  | pelx_record.void => True
  | pelx_record.true_color payload => payload.length = true_channels
  | pelx_record.pale index => index < palette_count ∧ index < palette_entries.length

instance (true_channels palette_len : Nat) (r : pelx_record) :
    Decidable (r.well_formed true_channels palette_len) := by
  cases r <;> unfold pelx_record.well_formed <;> infer_instance

/-- The stream that is the concatenation of the given records. -/
def stream_of (records : List pelx_record) : List Nat :=
  (records.map pelx_record.bytes).flatten

/-- The alpha byte that follows the three colour bytes of a pixel: nothing for 3 output
channels; for 4 output channels the stored alpha when the source has 4 channels and
0xFF when it has 3. -/
def alpha_bytes (source_channels png_channels : Nat) (stored : List Nat) : List Nat :=
  if png_channels = 4 then (if source_channels = 4 then stored else [0xFF]) else []

/-- The pixel of a record, as the specification words it. -/
def pelx_record.pixel (true_channels palette_channels : Nat)
    (palette_entries : List pelx_palette_entry_t) (png_channels : Nat) :
    pelx_record → List Nat
  | pelx_record.void => List.replicate png_channels 0x00
  | pelx_record.true_color payload =>
    payload.take 3 ++ alpha_bytes true_channels png_channels ((payload.drop 3).take 1)
  | pelx_record.pale index =>
    match palette_entries[index]? with
    | some entry =>
      [entry.r, entry.g, entry.b] ++ alpha_bytes palette_channels png_channels [entry.a]
    | none => []

/-- The in-order concatenation of one pixel per record. -/
def pixels_of (true_channels palette_channels : Nat)
    (palette_entries : List pelx_palette_entry_t) (png_channels : Nat)
    (records : List pelx_record) : List Nat :=
  (records.map
    (pelx_record.pixel true_channels palette_channels palette_entries png_channels)).flatten

/-- A 4-channel pixel buffer with every fourth byte (the alpha byte) removed. -/
def drop_alpha : List Nat → List Nat
  | r :: g :: b :: _ :: rest => r :: g :: b :: drop_alpha rest
  | short => short

/-! ## Relating the 3-channel and the 4-channel expansion -/

/-- The cursors of a 3-channel run and of a 4-channel run over the same body agree after
`k` pixels: same read cursor, `3 * k` and `4 * k` bytes stored, and the 3-channel bytes
are the 4-channel bytes without the alpha bytes. -/
def channels_rel (k : Nat) (s3 s4 : to_png_state) : Prop :=
  s3.src_pos = s4.src_pos ∧ s3.out.length = 3 * k ∧ s4.out.length = 4 * k ∧
    s3.out = drop_alpha s4.out

/-- Two outcomes of the loop body or of the loop agree: the same fault, the same error
return, or cursors related by `channels_rel` for some pixel count. -/
def flow_rel : Except pelx_fault to_png_flow → Except pelx_fault to_png_flow → Prop
  | Except.error e3, Except.error e4 => e3 = e4
  | Except.ok (to_png_flow.ret r3), Except.ok (to_png_flow.ret r4) => r3 = r4
  | Except.ok (to_png_flow.next s3), Except.ok (to_png_flow.next s4) =>
    ∃ k, channels_rel k s3 s4
  | _, _ => False

/-! ## Header invariants, as the specification lists them -/

/-- The kind of the first violated header invariant, in the order of the specification:
literal tag 'P' 'E' 'L' 'X' 0, non-zero width and height, true-channel count 3 or 4,
palette-channel count 3 or 4, non-zero palette count; `success` when all five hold. -/
def first_violation (h : pelx_header_t) : pelx_result_t :=
  if ¬ h.magic = ['P'.toNat, 'E'.toNat, 'L'.toNat, 'X'.toNat, 0] then
    pelx_result_t.header_mismatched_magic_number
  else if h.width = 0 ∨ h.height = 0 then
    pelx_result_t.header_invalid_size
  else if ¬ (h.true_channel_count = 3 ∨ h.true_channel_count = 4) then
    pelx_result_t.header_invalid_true_channels
  else if ¬ (h.palette_channel_count = 3 ∨ h.palette_channel_count = 4) then
    pelx_result_t.header_invalid_palette_channels
  else if h.palette_count = 0 then
    pelx_result_t.header_invalid_palette_count
  else
    pelx_result_t.success

/-- The five header invariants of the specification, all together. -/
def header_invariants (h : pelx_header_t) : Prop :=
  h.magic = ['P'.toNat, 'E'.toNat, 'L'.toNat, 'X'.toNat, 0] ∧
  (h.width > 0 ∧ h.height > 0) ∧
  (h.true_channel_count = 3 ∨ h.true_channel_count = 4) ∧
  (h.palette_channel_count = 3 ∨ h.palette_channel_count = 4) ∧
  h.palette_count > 0

/-! ## The container file layout, as the specification lays it out -/

/-- The two bytes of a 16-bit value, most significant first. -/
def be16_bytes (v : Nat) : List Nat := [v / 2 ^ 8 % 2 ^ 8, v % 2 ^ 8]

/-- The four bytes of a 32-bit value, most significant first. -/
def be32_bytes (v : Nat) : List Nat :=
  [v / 2 ^ 24 % 2 ^ 8, v / 2 ^ 16 % 2 ^ 8, v / 2 ^ 8 % 2 ^ 8, v % 2 ^ 8]

/-- The 16-bit value whose big-endian bytes stand at offset `off` of `f`. -/
def be16_at (f : List Nat) (off : Nat) : Nat :=
  f.getD off 0 * 2 ^ 8 + f.getD (off + 1) 0

/-- The 32-bit value whose big-endian bytes stand at offset `off` of `f`. -/
def be32_at (f : List Nat) (off : Nat) : Nat :=
  f.getD off 0 * 2 ^ 24 + f.getD (off + 1) 0 * 2 ^ 16 + f.getD (off + 2) 0 * 2 ^ 8
    + f.getD (off + 3) 0

/-- The 26 header bytes of the file layout: magic, header size, palette offset, width,
height, palette-channel count, true-channel count, palette count, reserved bytes. -/
def header_bytes (h : pelx_header_t) : List Nat :=
  h.magic ++ be32_bytes h.header_size ++ be32_bytes h.palette_offset ++
    be16_bytes h.width ++ be16_bytes h.height ++
    [h.palette_channel_count] ++ [h.true_channel_count] ++
    be16_bytes h.palette_count ++ h.reserved

/-- The header fields read from the offsets 0, 5, 9, 13, 15, 17, 18, 19 and 21 of a
file. -/
def header_at (f : List Nat) : pelx_header_t :=
  { magic := f.take 5, header_size := be32_at f 5, palette_offset := be32_at f 9,
    width := be16_at f 13, height := be16_at f 15,
    palette_channel_count := f.getD 17 0, true_channel_count := f.getD 18 0,
    palette_count := be16_at f 19, reserved := (f.drop 21).take 5 }

/-- The ranges that the C types give the fields of a header: arrays of 5 bytes, 32-bit
offsets, 16-bit dimensions and palette count, 8-bit channel counts. -/
def pelx_header_t.in_range (h : pelx_header_t) : Prop :=
  h.magic.length = 5 ∧ (∀ b ∈ h.magic, b < 2 ^ 8) ∧
  h.header_size < 2 ^ 32 ∧ h.palette_offset < 2 ^ 32 ∧
  h.width < 2 ^ 16 ∧ h.height < 2 ^ 16 ∧
  h.palette_channel_count < 2 ^ 8 ∧ h.true_channel_count < 2 ^ 8 ∧
  h.palette_count < 2 ^ 16 ∧
  h.reserved.length = 5 ∧ (∀ b ∈ h.reserved, b < 2 ^ 8)

instance (h : pelx_header_t) : Decidable h.in_range := by
  unfold pelx_header_t.in_range
  infer_instance

/-! ## Example files -/

/-- The 33 bytes of the file that `pelx_encode_pelx_f` writes for `scenario_file`. -/
def scenario_bytes : List Nat :=
  [0x50, 0x45, 0x4C, 0x58, 0x00, 0, 0, 0, 26, 0, 0, 0, 26, 0, 2, 0, 1, 4, 4, 0, 2,
    0, 0, 0, 0, 0, 0x02, 0x00, 0x01, 0x11, 0x22, 0x33, 0x44]

/-- A one-pixel container with a body buffer of 65536 bytes, whose `body.size` is
65536 cast to 16 bits. -/
def big_container : pelx_file_data_t :=
  { header := mk_header 1 1 4 4 2,
    body := { size := 65536 % 2 ^ 16, data := List.replicate 65536 0x00 } }

/-- A file of 26 header bytes, with header size 26, followed by 65536 body bytes. -/
def big_file : List Nat :=
  header_bytes (mk_header 1 1 4 4 2) ++ List.replicate 65536 0x00

/-! ## Auxiliary facts about the reads and stores of the loop -/

theorem read_src_append (pre mid : List Nat) (j : Nat) :
    read_src (pre ++ mid) (pre.length + j) = read_src mid j := by
  unfold read_src
  rw [List.getElem?_append_right (by omega)]
  simp

theorem read_src_at (pre rest : List Nat) (b : Nat) :
    read_src (pre ++ b :: rest) pre.length = Except.ok b := by
  have h := read_src_append pre (b :: rest) 0
  simpa [read_src] using h

theorem write_out_ok (B : Nat) (out : List Nat) (b : Nat) (h : out.length < B) :
    write_out B out b = Except.ok (out ++ [b]) := by
  simp [write_out, h]

theorem body_void (pre rest : List Nat) (src_size B tc pc n : Nat)
    (pal : List pelx_palette_entry_t) (c : Nat) (out : List Nat)
    (hc : c = 3 ∨ c = 4) (hB : out.length + c ≤ B) :
    to_png_body (pre ++ 0 :: rest) src_size B tc pc n pal c ⟨pre.length, out⟩
      = Except.ok (to_png_flow.next ⟨pre.length + 1, out ++ List.replicate c 0⟩) := by
  have h1 : out.length < B := by omega
  have h2 : out.length + 1 < B := by omega
  have h3 : out.length + 1 + 1 < B := by omega
  rcases hc with rfl | rfl
  · simp [to_png_body, read_src_at, PELX_tag_void, bind, Except.bind, pure, Except.pure,
      write_out, h1, h2, h3, List.replicate]
  · have h4 : out.length + 1 + 1 + 1 < B := by omega
    simp [to_png_body, read_src_at, PELX_tag_void, bind, Except.bind, pure, Except.pure,
      write_out, h1, h2, h3, h4, List.replicate]

theorem body_true (pre payload rest : List Nat) (src_size B tc pc n : Nat)
    (pal : List pelx_palette_entry_t) (c : Nat) (out : List Nat)
    (hc : c = 3 ∨ c = 4) (htc : tc = 3 ∨ tc = 4) (hp : payload.length = tc)
    (hsize : pre.length + 1 + tc ≤ src_size) (hB : out.length + c ≤ B) :
    to_png_body (pre ++ 1 :: (payload ++ rest)) src_size B tc pc n pal c ⟨pre.length, out⟩
      = Except.ok (to_png_flow.next ⟨pre.length + 1 + tc,
          out ++ (payload.take 3 ++ alpha_bytes tc c ((payload.drop 3).take 1))⟩) := by
  have h1 : out.length < B := by omega
  have h2 : out.length + 1 < B := by omega
  have h3 : out.length + 1 + 1 < B := by omega
  have hs : ¬ (src_size < pre.length + 1 + tc) := by omega
  rcases htc with rfl | rfl
  · obtain ⟨r, g, b, rfl⟩ : ∃ r g b, payload = [r, g, b] := by
      match payload, hp with
      | [r, g, b], _ => exact ⟨r, g, b, rfl⟩
    rcases hc with rfl | rfl
    · simp [to_png_body, read_src_at, PELX_tag_void, PELX_tag_true, bind, Except.bind, pure,
        Except.pure, write_out, h1, h2, h3, hs, alpha_bytes, Nat.add_assoc, read_src_append]
      simp [read_src]
    · have h4 : out.length + 1 + 1 + 1 < B := by omega
      simp [to_png_body, read_src_at, PELX_tag_void, PELX_tag_true, bind, Except.bind, pure,
        Except.pure, write_out, h1, h2, h3, h4, hs, alpha_bytes, Nat.add_assoc,
        read_src_append]
      simp [read_src, write_out, h1, h2, h3, h4]
  · obtain ⟨r, g, b, a, rfl⟩ : ∃ r g b a, payload = [r, g, b, a] := by
      match payload, hp with
      | [r, g, b, a], _ => exact ⟨r, g, b, a, rfl⟩
    rcases hc with rfl | rfl
    · simp [to_png_body, read_src_at, PELX_tag_void, PELX_tag_true, bind, Except.bind, pure,
        Except.pure, write_out, h1, h2, h3, hs, alpha_bytes, Nat.add_assoc, read_src_append]
      simp [read_src]
    · have h4 : out.length + 1 + 1 + 1 < B := by omega
      simp [to_png_body, read_src_at, PELX_tag_void, PELX_tag_true, bind, Except.bind, pure,
        Except.pure, write_out, h1, h2, h3, h4, hs, alpha_bytes, Nat.add_assoc,
        read_src_append]
      simp [read_src, write_out, h1, h2, h3, h4]

theorem body_pale (pre rest : List Nat) (i : Nat) (src_size B tc pc n : Nat)
    (pal : List pelx_palette_entry_t) (c : Nat) (out : List Nat) (e : pelx_palette_entry_t)
    (hc : c = 3 ∨ c = 4) (hi : i < n) (he : pal[i]? = some e)
    (hsize : pre.length + 2 ≤ src_size) (hB : out.length + c ≤ B) :
    to_png_body (pre ++ 2 :: i :: rest) src_size B tc pc n pal c ⟨pre.length, out⟩
      = Except.ok (to_png_flow.next ⟨pre.length + 2,
          out ++ ([e.r, e.g, e.b] ++ alpha_bytes pc c [e.a])⟩) := by
  have h1 : out.length < B := by omega
  have h2 : out.length + 1 < B := by omega
  have h3 : out.length + 1 + 1 < B := by omega
  have hs : ¬ (src_size < pre.length + 2) := by omega
  have hn : ¬ (n ≤ i) := by omega
  rcases hc with rfl | rfl
  · simp [to_png_body, read_src_at, PELX_tag_void, PELX_tag_true, PELX_tag_pale, bind,
      Except.bind, pure, Except.pure, write_out, h1, h2, h3, hs, hn, alpha_bytes,
      Nat.add_assoc, read_src_append, read_palette, he]
    simp [read_src, hn, he]
  · have h4 : out.length + 1 + 1 + 1 < B := by omega
    simp [to_png_body, read_src_at, PELX_tag_void, PELX_tag_true, PELX_tag_pale, bind,
      Except.bind, pure, Except.pure, write_out, h1, h2, h3, h4, hs, hn, alpha_bytes,
      Nat.add_assoc, read_src_append, read_palette, he]
    simp [read_src, hn, he, write_out, h1, h2, h3, h4]
    split <;> simp

theorem body_pale_out_of_range (pre rest : List Nat) (i : Nat) (src_size B tc pc n : Nat)
    (pal : List pelx_palette_entry_t) (c : Nat) (out : List Nat)
    (hi : n ≤ i) (hsize : pre.length + 2 ≤ src_size) :
    to_png_body (pre ++ 2 :: i :: rest) src_size B tc pc n pal c ⟨pre.length, out⟩
      = Except.ok (to_png_flow.ret pelx_result_t.io_error) := by
  have hs : ¬ (src_size < pre.length + 2) := by omega
  simp [to_png_body, read_src_at, PELX_tag_void, PELX_tag_true, PELX_tag_pale, bind,
    Except.bind, pure, Except.pure, hs, Nat.add_assoc, read_src_append]
  simp [read_src, hi]

theorem body_bad_tag (pre rest : List Nat) (t : Nat) (src_size B tc pc n : Nat)
    (pal : List pelx_palette_entry_t) (c : Nat) (out : List Nat)
    (h0 : t ≠ 0) (h1 : t ≠ 1) (h2 : t ≠ 2) :
    to_png_body (pre ++ t :: rest) src_size B tc pc n pal c ⟨pre.length, out⟩
      = Except.ok (to_png_flow.ret pelx_result_t.invalid_data_format) := by
  simp [to_png_body, read_src_at, PELX_tag_void, PELX_tag_true, PELX_tag_pale, bind,
    Except.bind, pure, Except.pure, h0, h1, h2]

/-! ## Running the loop over a sequence of well-formed records -/

theorem bytes_length_pos (r : pelx_record) : 1 ≤ r.bytes.length := by
  cases r <;> simp [pelx_record.bytes]

theorem stream_of_cons (r : pelx_record) (rs : List pelx_record) :
    stream_of (r :: rs) = r.bytes ++ stream_of rs := by
  simp [stream_of]

theorem pixels_of_cons (tc pc : Nat) (pal : List pelx_palette_entry_t) (c : Nat)
    (r : pelx_record) (rs : List pelx_record) :
    pixels_of tc pc pal c (r :: rs) = r.pixel tc pc pal c ++ pixels_of tc pc pal c rs := by
  simp [pixels_of]

theorem stream_of_length_ge (rs : List pelx_record) : rs.length ≤ (stream_of rs).length := by
  induction rs with
  | nil => simp
  | cons r rs ih =>
    have := bytes_length_pos r
    simp [stream_of_cons]
    omega

theorem expandable_of_well_formed {tc : Nat} {pal : List pelx_palette_entry_t}
    {recs : List pelx_record} (hwf : ∀ r ∈ recs, r.well_formed tc pal.length) :
    ∀ r ∈ recs, r.expandable tc pal.length pal := by
  intro r hr
  have h := hwf r hr
  cases r with
  | void => trivial
  | true_color payload => exact h
  | pale index => exact ⟨h, h⟩

theorem body_record (r : pelx_record) (pre rest : List Nat) (src_size B tc pc n : Nat)
    (pal : List pelx_palette_entry_t) (c : Nat) (out : List Nat)
    (hc : c = 3 ∨ c = 4) (htc : tc = 3 ∨ tc = 4)
    (hwf : r.expandable tc n pal)
    (hsize : pre.length + r.bytes.length ≤ src_size) (hB : out.length + c ≤ B) :
    to_png_body (pre ++ (r.bytes ++ rest)) src_size B tc pc n pal c ⟨pre.length, out⟩
      = Except.ok (to_png_flow.next
          ⟨pre.length + r.bytes.length, out ++ r.pixel tc pc pal c⟩) := by
  cases r with
  | void =>
    simpa [pelx_record.bytes, pelx_record.pixel] using
      body_void pre rest src_size B tc pc n pal c out hc hB
  | true_color payload =>
    have hp : payload.length = tc := hwf
    have hs : pre.length + 1 + tc ≤ src_size := by
      simp [pelx_record.bytes] at hsize
      omega
    have h := body_true pre payload rest src_size B tc pc n pal c out hc htc hp hs hB
    simp only [pelx_record.bytes, pelx_record.pixel, List.cons_append, List.length_cons, hp]
    rw [h]
    have e : pre.length + 1 + tc = pre.length + (tc + 1) := by omega
    rw [e]
  | pale index =>
    have hi : index < n := hwf.1
    have hlt : index < pal.length := hwf.2
    have he : pal[index]? = some pal[index] := List.getElem?_eq_getElem hlt
    have hs : pre.length + 2 ≤ src_size := by
      simpa [pelx_record.bytes] using hsize
    have h := body_pale pre rest index src_size B tc pc n pal c out pal[index] hc hi he hs hB
    simpa [pelx_record.bytes, pelx_record.pixel, he] using h

theorem pixel_length (r : pelx_record) (tc pc n : Nat) (pal : List pelx_palette_entry_t)
    (c : Nat) (hc : c = 3 ∨ c = 4) (htc : tc = 3 ∨ tc = 4)
    (hwf : r.expandable tc n pal) : (r.pixel tc pc pal c).length = c := by
  cases r with
  | void => simp [pelx_record.pixel]
  | true_color payload =>
    have hp : payload.length = tc := hwf
    rcases htc with rfl | rfl <;> rcases hc with rfl | rfl <;>
      simp [pelx_record.pixel, alpha_bytes, hp]
  | pale index =>
    have hlt : index < pal.length := hwf.2
    have he : pal[index]? = some pal[index] := List.getElem?_eq_getElem hlt
    rcases hc with rfl | rfl
    · simp [pelx_record.pixel, alpha_bytes, he]
    · by_cases hpc : pc = 4 <;> simp [pelx_record.pixel, alpha_bytes, he, hpc]

theorem pixels_of_length (tc pc n : Nat) (pal : List pelx_palette_entry_t)
    (c : Nat) (hc : c = 3 ∨ c = 4) (htc : tc = 3 ∨ tc = 4)
    (recs : List pelx_record) (hwf : ∀ r ∈ recs, r.expandable tc n pal) :
    (pixels_of tc pc pal c recs).length = recs.length * c := by
  induction recs with
  | nil => simp [pixels_of]
  | cons r rs ih =>
    have h1 := pixel_length r tc pc n pal c hc htc (hwf r (List.mem_cons_self r rs))
    have h2 := ih (fun x hx => hwf x (List.mem_cons_of_mem r hx))
    simp only [pixels_of_cons, List.length_append, List.length_cons, h1, h2]
    rw [Nat.add_mul]
    omega

theorem loop_records (src_size B tc pc n : Nat) (pal : List pelx_palette_entry_t) (c : Nat)
    (hc : c = 3 ∨ c = 4) (htc : tc = 3 ∨ tc = 4)
    (recs : List pelx_record) :
    ∀ (pre out rest : List Nat) (fuel : Nat),
      (∀ r ∈ recs, r.expandable tc n pal) →
      pre.length + (stream_of recs).length ≤ src_size →
      out.length + recs.length * c ≤ B →
      recs.length ≤ fuel →
      to_png_loop (pre ++ (stream_of recs ++ rest)) src_size B tc pc n pal c fuel
          ⟨pre.length, out⟩
        = to_png_loop (pre ++ (stream_of recs ++ rest)) src_size B tc pc n pal c
            (fuel - recs.length)
            ⟨pre.length + (stream_of recs).length, out ++ pixels_of tc pc pal c recs⟩ := by
  induction recs with
  | nil =>
    intro pre out rest fuel _ _ _ _
    simp [stream_of, pixels_of]
  | cons r rs ih =>
    intro pre out rest fuel hwf hsize hB hfuel
    have hr := bytes_length_pos r
    have hlen : (stream_of (r :: rs)).length = r.bytes.length + (stream_of rs).length := by
      simp [stream_of_cons]
    rw [hlen] at hsize
    simp only [List.length_cons] at hB hfuel
    have hB1 : out.length + c ≤ B := by
      have : c ≤ (rs.length + 1) * c := Nat.le_mul_of_pos_left c (by omega)
      omega
    have hg : out.length < B ∧ pre.length < src_size := by
      constructor <;> omega
    obtain ⟨f, rfl⟩ : ∃ f, fuel = f + 1 := ⟨fuel - 1, by omega⟩
    have hbody := body_record r pre (stream_of rs ++ rest) src_size B tc pc n pal c out hc htc
      (hwf r (List.mem_cons_self r rs)) (by omega) hB1
    rw [to_png_loop]
    simp only [to_png_state.out_pos, hg, and_self, if_true, stream_of_cons, List.append_assoc]
    rw [hbody]
    simp only []
    have hpx := pixel_length r tc pc n pal c hc htc (hwf r (List.mem_cons_self r rs))
    have hB2 : (out ++ r.pixel tc pc pal c).length + rs.length * c ≤ B := by
      rw [List.length_append, hpx]
      have : (rs.length + 1) * c = rs.length * c + c := by rw [Nat.add_mul]; omega
      omega
    have hsz2 : (pre ++ r.bytes).length + (stream_of rs).length ≤ src_size := by
      rw [List.length_append]
      omega
    have h := ih (pre ++ r.bytes) (out ++ r.pixel tc pc pal c) rest f
      (fun x hx => hwf x (List.mem_cons_of_mem r hx)) hsz2 hB2 (by omega)
    simp only [List.append_assoc, List.length_append] at h
    rw [h]
    simp only [List.length_cons, List.length_append, pixels_of_cons, List.append_assoc,
      Nat.add_assoc, Nat.add_sub_add_right]

/-! ## From the loop to the result of pelx_to_png_f -/

theorem sanitize_success_iff (h : pelx_header_t) :
    (pelx_sanitize_header_f (some h)).1 = pelx_result_t.success ↔
      h.magic = PELX_magic ∧ h.width ≠ 0 ∧ h.height ≠ 0 ∧
      (h.true_channel_count = 3 ∨ h.true_channel_count = 4) ∧
      (h.palette_channel_count = 3 ∨ h.palette_channel_count = 4) ∧
      h.palette_count ≠ 0 := by
  unfold pelx_sanitize_header_f
  by_cases hm : h.magic = PELX_magic
  · by_cases hw : h.width = 0
    · simp [hm, hw]
    · by_cases hh : h.height = 0
      · simp [hm, hw, hh]
      · by_cases ht : h.true_channel_count = 3 ∨ h.true_channel_count = 4
        · by_cases hp : h.palette_channel_count = 3 ∨ h.palette_channel_count = 4
          · by_cases hc : h.palette_count = 0
            · have ht2 : ¬ (¬ h.true_channel_count = 3 ∧ ¬ h.true_channel_count = 4) := by tauto
              have hp2 : ¬ (¬ h.palette_channel_count = 3 ∧ ¬ h.palette_channel_count = 4) := by
                tauto
              simp [hm, hw, hh, ht2, hp2, hc]
            · have ht2 : ¬ (¬ h.true_channel_count = 3 ∧ ¬ h.true_channel_count = 4) := by tauto
              have hp2 : ¬ (¬ h.palette_channel_count = 3 ∧ ¬ h.palette_channel_count = 4) := by
                tauto
              simp [hm, hw, hh, ht2, hp2, hc, ht, hp]
          · have ht2 : ¬ (¬ h.true_channel_count = 3 ∧ ¬ h.true_channel_count = 4) := by tauto
            have hp2 : ¬ h.palette_channel_count = 3 ∧ ¬ h.palette_channel_count = 4 := by
              tauto
            simp [hm, hw, hh, ht2, hp2, hp]
        · have ht2 : ¬ h.true_channel_count = 3 ∧ ¬ h.true_channel_count = 4 := by tauto
          simp [hm, hw, hh, ht2, ht]
  · simp [hm]

theorem loop_exit (src : List Nat) (src_size B tc pc n : Nat)
    (pal : List pelx_palette_entry_t) (c fuel : Nat) (s : to_png_state)
    (h : ¬ (s.out.length < B ∧ s.src_pos < src_size)) :
    to_png_loop src src_size B tc pc n pal c fuel s = Except.ok (to_png_flow.next s) := by
  cases fuel <;> rw [to_png_loop] <;> simp only [to_png_state.out_pos, h, if_false]

theorem loop_step (src : List Nat) (src_size B tc pc n : Nat)
    (pal : List pelx_palette_entry_t) (c fuel : Nat) (s : to_png_state)
    (h : s.out.length < B ∧ s.src_pos < src_size) :
    to_png_loop src src_size B tc pc n pal c (fuel + 1) s =
      match to_png_body src src_size B tc pc n pal c s with
      | Except.error e => Except.error e
      | Except.ok (to_png_flow.ret r) => Except.ok (to_png_flow.ret r)
      | Except.ok (to_png_flow.next s') => to_png_loop src src_size B tc pc n pal c fuel s' := by
  conv_lhs => unfold to_png_loop
  simp only [to_png_state.out_pos, h, and_self, if_true]

theorem to_png_of_loop_next (d : pelx_file_data_t) (n : Nat) (pal : List pelx_palette_entry_t)
    (c : Nat) (prior : Option (List Nat)) (s : to_png_state)
    (hv : (pelx_sanitize_header_f (some d.header)).1 = pelx_result_t.success)
    (hc : c = 3 ∨ c = 4)
    (hloop : to_png_loop d.body.data d.body.size (d.header.width * d.header.height * c)
      d.header.true_channel_count d.header.palette_channel_count n pal c d.body.size ⟨0, []⟩
        = Except.ok (to_png_flow.next s)) :
    pelx_to_png_f true d n pal c prior =
      if s.out.length ≠ d.header.width * d.header.height * c then
        Except.ok (pelx_result_t.invalid_data_format, none)
      else Except.ok (pelx_result_t.success, some s.out) := by
  have hc2 : ¬ (c ≠ 3 ∧ c ≠ 4) := by tauto
  unfold pelx_to_png_f
  simp only [hc2, if_false, hv, ne_eq, not_true_eq_false, Bool.true_eq_false, hloop,
    to_png_state.out_pos]

theorem to_png_of_loop_ret (d : pelx_file_data_t) (n : Nat) (pal : List pelx_palette_entry_t)
    (c : Nat) (prior : Option (List Nat)) (r : pelx_result_t)
    (hv : (pelx_sanitize_header_f (some d.header)).1 = pelx_result_t.success)
    (hc : c = 3 ∨ c = 4)
    (hloop : to_png_loop d.body.data d.body.size (d.header.width * d.header.height * c)
      d.header.true_channel_count d.header.palette_channel_count n pal c d.body.size ⟨0, []⟩
        = Except.ok (to_png_flow.ret r)) :
    pelx_to_png_f true d n pal c prior = Except.ok (r, none) := by
  have hc2 : ¬ (c ≠ 3 ∧ c ≠ 4) := by tauto
  unfold pelx_to_png_f
  simp only [hc2, if_false, hv, ne_eq, not_true_eq_false, Bool.true_eq_false, hloop]

theorem to_png_of_loop_error (d : pelx_file_data_t) (n : Nat)
    (pal : List pelx_palette_entry_t) (c : Nat) (prior : Option (List Nat)) (e : pelx_fault)
    (hv : (pelx_sanitize_header_f (some d.header)).1 = pelx_result_t.success)
    (hc : c = 3 ∨ c = 4)
    (hloop : to_png_loop d.body.data d.body.size (d.header.width * d.header.height * c)
      d.header.true_channel_count d.header.palette_channel_count n pal c d.body.size ⟨0, []⟩
        = Except.error e) :
    pelx_to_png_f true d n pal c prior = Except.error e := by
  have hc2 : ¬ (c ≠ 3 ∧ c ≠ 4) := by tauto
  unfold pelx_to_png_f
  simp only [hc2, if_false, hv, ne_eq, not_true_eq_false, Bool.true_eq_false, hloop]

/-- The cursors after the loop has run over `recs`, when the body starts with the stream
of `recs` and at most `width * height` records are given. -/
theorem loop_after_records (d : pelx_file_data_t) (n : Nat) (pal : List pelx_palette_entry_t)
    (c : Nat) (recs : List pelx_record) (rest : List Nat)
    (hv : (pelx_sanitize_header_f (some d.header)).1 = pelx_result_t.success)
    (hc : c = 3 ∨ c = 4)
    (hwf : ∀ r ∈ recs, r.expandable d.header.true_channel_count n pal)
    (hcount : recs.length ≤ d.header.width * d.header.height)
    (hdata : d.body.data = stream_of recs ++ rest)
    (hsize : d.body.size = d.body.data.length) :
    to_png_loop d.body.data d.body.size (d.header.width * d.header.height * c)
        d.header.true_channel_count d.header.palette_channel_count n pal c d.body.size ⟨0, []⟩
      = to_png_loop d.body.data d.body.size (d.header.width * d.header.height * c)
          d.header.true_channel_count d.header.palette_channel_count n pal c
          (d.body.size - recs.length)
          ⟨(stream_of recs).length,
            pixels_of d.header.true_channel_count d.header.palette_channel_count pal c recs⟩ := by
  have htc := ((sanitize_success_iff d.header).1 hv).2.2.2.1
  have hge := stream_of_length_ge recs
  have hsz : d.body.size = (stream_of recs).length + rest.length := by
    rw [hsize, hdata, List.length_append]
  have hB : ([] : List Nat).length + recs.length * c
      ≤ d.header.width * d.header.height * c := by
    simpa using Nat.mul_le_mul_right c hcount
  have h := loop_records d.body.size (d.header.width * d.header.height * c)
    d.header.true_channel_count d.header.palette_channel_count n pal c hc htc recs
    [] [] rest d.body.size hwf (by simp; omega) hB (by omega)
  simpa [← hdata] using h

/-- When the loop body, entered after fewer than `width * height` records, leaves the
function with kind `r`, so does `pelx_to_png_f`, with a cleared handle. -/
theorem to_png_records_then_ret (d : pelx_file_data_t) (n : Nat)
    (pal : List pelx_palette_entry_t) (c : Nat) (prior : Option (List Nat))
    (recs : List pelx_record) (rest : List Nat) (r : pelx_result_t)
    (hv : (pelx_sanitize_header_f (some d.header)).1 = pelx_result_t.success)
    (hc : c = 3 ∨ c = 4)
    (hwf : ∀ x ∈ recs, x.expandable d.header.true_channel_count n pal)
    (hcount : recs.length < d.header.width * d.header.height)
    (hdata : d.body.data = stream_of recs ++ rest)
    (hsize : d.body.size = d.body.data.length)
    (hrest : rest ≠ [])
    (hbody : to_png_body d.body.data d.body.size (d.header.width * d.header.height * c)
        d.header.true_channel_count d.header.palette_channel_count n pal c
        ⟨(stream_of recs).length,
          pixels_of d.header.true_channel_count d.header.palette_channel_count pal c recs⟩
      = Except.ok (to_png_flow.ret r)) :
    pelx_to_png_f true d n pal c prior = Except.ok (r, none) := by
  have htc := ((sanitize_success_iff d.header).1 hv).2.2.2.1
  have hloop := loop_after_records d n pal c recs rest hv hc hwf (by omega) hdata hsize
  have hpx := pixels_of_length d.header.true_channel_count d.header.palette_channel_count
    n pal c hc htc recs hwf
  have hge := stream_of_length_ge recs
  have hrl : 1 ≤ rest.length := by
    cases rest with
    | nil => exact absurd rfl hrest
    | cons a t => simp
  have hsz : d.body.size = (stream_of recs).length + rest.length := by
    rw [hsize, hdata, List.length_append]
  have hcpos : 0 < c := by omega
  have hlt : recs.length * c < d.header.width * d.header.height * c :=
    Nat.mul_lt_mul_of_pos_right hcount hcpos
  obtain ⟨f, hf⟩ : ∃ f, d.body.size - recs.length = f + 1 :=
    ⟨d.body.size - recs.length - 1, by omega⟩
  rw [hf] at hloop
  have hstep := loop_step d.body.data d.body.size (d.header.width * d.header.height * c)
    d.header.true_channel_count d.header.palette_channel_count n pal c f
    ⟨(stream_of recs).length,
      pixels_of d.header.true_channel_count d.header.palette_channel_count pal c recs⟩
    ⟨by simp only [hpx]; exact hlt, by simp only []; omega⟩
  rw [hbody] at hstep
  exact to_png_of_loop_ret d n pal c prior r hv hc (hloop.trans hstep)

theorem body_ret_ne_success (src : List Nat) (src_size B tc pc n : Nat)
    (pal : List pelx_palette_entry_t) (c : Nat) (s : to_png_state) (r : pelx_result_t)
    (h : to_png_body src src_size B tc pc n pal c s = Except.ok (to_png_flow.ret r)) :
    r ≠ pelx_result_t.success := by
  unfold to_png_body at h
  simp only [bind, Except.bind, pure, Except.pure] at h
  repeat' split at h
  all_goals (cases h <;> decide)

theorem loop_ret_ne_success (src : List Nat) (src_size B tc pc n : Nat)
    (pal : List pelx_palette_entry_t) (c : Nat) (r : pelx_result_t) :
    ∀ (fuel : Nat) (s : to_png_state),
      to_png_loop src src_size B tc pc n pal c fuel s = Except.ok (to_png_flow.ret r) →
      r ≠ pelx_result_t.success := by
  intro fuel
  induction fuel with
  | zero =>
    intro s h
    rw [to_png_loop] at h
    split at h <;> cases h
  | succ f ih =>
    intro s h
    rw [to_png_loop] at h
    split at h
    · split at h
      · cases h
      · rename_i r' hb
        injection h with h
        injection h with h
        subst h
        exact body_ret_ne_success _ _ _ _ _ _ _ _ _ _ hb
      · exact ih _ h
    · cases h

/-! ## The iteration budget is never exhausted -/

theorem body_advances (src : List Nat) (src_size B tc pc n : Nat)
    (pal : List pelx_palette_entry_t) (c : Nat) (s s' : to_png_state)
    (h : to_png_body src src_size B tc pc n pal c s = Except.ok (to_png_flow.next s')) :
    s.src_pos < s'.src_pos := by
  unfold to_png_body at h
  simp only [bind, Except.bind, pure, Except.pure] at h
  repeat' split at h
  all_goals (cases h <;> simp only [] <;> omega)

theorem read_src_fault (src : List Nat) (i : Nat) :
    read_src src i ≠ Except.error pelx_fault.out_of_fuel := by
  unfold read_src
  split <;> simp

theorem read_palette_fault (pal : List pelx_palette_entry_t) (i : Nat) :
    read_palette pal i ≠ Except.error pelx_fault.out_of_fuel := by
  unfold read_palette
  split <;> simp

theorem write_out_fault (B : Nat) (out : List Nat) (b : Nat) :
    write_out B out b ≠ Except.error pelx_fault.out_of_fuel := by
  unfold write_out
  split <;> simp

theorem body_fault (src : List Nat) (src_size B tc pc n : Nat)
    (pal : List pelx_palette_entry_t) (c : Nat) (s : to_png_state) :
    to_png_body src src_size B tc pc n pal c s ≠ Except.error pelx_fault.out_of_fuel := by
  intro hb
  unfold to_png_body at hb
  simp only [bind, Except.bind, pure, Except.pure] at hb
  repeat' split at hb
  all_goals (cases hb <;> first
    | exact absurd (by assumption) (read_src_fault _ _)
    | exact absurd (by assumption) (write_out_fault _ _ _)
    | exact absurd (by assumption) (read_palette_fault _ _))

theorem loop_fuel_suffices (src : List Nat) (src_size B tc pc n : Nat)
    (pal : List pelx_palette_entry_t) (c : Nat) :
    ∀ (fuel : Nat) (s : to_png_state), src_size ≤ fuel + s.src_pos →
      to_png_loop src src_size B tc pc n pal c fuel s ≠ Except.error pelx_fault.out_of_fuel := by
  intro fuel
  induction fuel with
  | zero =>
    intro s hs
    rw [loop_exit _ _ _ _ _ _ _ _ _ _ (by omega)]
    simp
  | succ f ih =>
    intro s hs
    by_cases g : s.out.length < B ∧ s.src_pos < src_size
    · rw [loop_step _ _ _ _ _ _ _ _ _ _ g]
      cases hb : to_png_body src src_size B tc pc n pal c s with
      | error e =>
        simp only []
        intro he
        injection he with he
        subst he
        exact body_fault _ _ _ _ _ _ _ _ _ hb
      | ok v =>
        cases v with
        | next s' =>
          have := body_advances _ _ _ _ _ _ _ _ _ _ hb
          exact ih s' (by omega)
        | ret r => simp
    · rw [loop_exit _ _ _ _ _ _ _ _ _ _ g]
      simp

/-- The loop of `pelx_to_png_f` always ends within the `src_size` iterations it is
given. -/
theorem to_png_fuel_suffices (malloc_ok : Bool) (d : pelx_file_data_t) (n : Nat)
    (pal : List pelx_palette_entry_t) (c : Nat) (prior : Option (List Nat)) :
    pelx_to_png_f malloc_ok d n pal c prior ≠ Except.error pelx_fault.out_of_fuel := by
  have hl := loop_fuel_suffices d.body.data d.body.size
    (d.header.width * d.header.height * c) d.header.true_channel_count
    d.header.palette_channel_count n pal c d.body.size ⟨0, []⟩ (by simp)
  intro h
  unfold pelx_to_png_f at h
  split at h
  · cases h
  · simp only [] at h
    split at h
    · cases h
    · split at h
      · cases h
      · split at h
        · rename_i e he
          injection h with h
          subst h
          exact hl he
        · cases h
        · split at h <;> cases h

/-! ## What one iteration can return and how much it stores -/

theorem body_ret_kind (src : List Nat) (src_size B tc pc n : Nat)
    (pal : List pelx_palette_entry_t) (c : Nat) (s : to_png_state) (r : pelx_result_t)
    (h : to_png_body src src_size B tc pc n pal c s = Except.ok (to_png_flow.ret r)) :
    r = pelx_result_t.io_error ∨ r = pelx_result_t.invalid_data_format := by
  unfold to_png_body at h
  simp only [bind, Except.bind, pure, Except.pure] at h
  repeat' split at h
  all_goals (cases h <;> simp)

theorem loop_ret_kind (src : List Nat) (src_size B tc pc n : Nat)
    (pal : List pelx_palette_entry_t) (c : Nat) (r : pelx_result_t) :
    ∀ (fuel : Nat) (s : to_png_state),
      to_png_loop src src_size B tc pc n pal c fuel s = Except.ok (to_png_flow.ret r) →
      r = pelx_result_t.io_error ∨ r = pelx_result_t.invalid_data_format := by
  intro fuel
  induction fuel with
  | zero =>
    intro s h
    rw [to_png_loop] at h
    split at h <;> cases h
  | succ f ih =>
    intro s h
    rw [to_png_loop] at h
    split at h
    · split at h
      · cases h
      · rename_i r' hb
        injection h with h
        injection h with h
        subst h
        exact body_ret_kind _ _ _ _ _ _ _ _ _ _ hb
      · exact ih _ h
    · cases h

theorem write_out_ok_iff (B : Nat) (out out' : List Nat) (b : Nat) :
    write_out B out b = Except.ok out' ↔ out.length < B ∧ out' = out ++ [b] := by
  unfold write_out
  split <;> simp_all [eq_comm]

theorem body_out_length (src : List Nat) (src_size B tc pc n : Nat)
    (pal : List pelx_palette_entry_t) (c : Nat) (s s' : to_png_state)
    (h : to_png_body src src_size B tc pc n pal c s = Except.ok (to_png_flow.next s')) :
    s'.out.length ≤ s.out.length + 4 ∧ (c ≠ 4 → s'.out.length = s.out.length + 3) := by
  unfold to_png_body at h
  simp only [bind, Except.bind, pure, Except.pure] at h
  repeat' split at h
  all_goals (cases h <;> simp_all [write_out_ok_iff])

theorem loop_out_bound (src : List Nat) (src_size B tc pc n : Nat)
    (pal : List pelx_palette_entry_t) (c : Nat) (hc : c = 3 ∨ c = 4) :
    ∀ (fuel : Nat) (s s' : to_png_state),
      to_png_loop src src_size B tc pc n pal c fuel s = Except.ok (to_png_flow.next s') →
      s'.out.length ≤ s.out.length + fuel * c := by
  intro fuel
  induction fuel with
  | zero =>
    intro s s' h
    rw [to_png_loop] at h
    split at h
    · cases h
    · cases h
      simp
  | succ f ih =>
    intro s s' h
    rw [to_png_loop] at h
    split at h
    · split at h
      · cases h
      · cases h
      · rename_i s1 hb
        have h1 := body_out_length _ _ _ _ _ _ _ _ _ _ hb
        have h2 := ih s1 s' h
        have h3 : (f + 1) * c = f * c + c := by rw [Nat.add_mul]; omega
        rcases hc with rfl | rfl
        · have := h1.2 (by decide)
          omega
        · omega
    · cases h
      omega

theorem body_true_truncated (pre rest : List Nat) (src_size B tc pc n : Nat)
    (pal : List pelx_palette_entry_t) (c : Nat) (out : List Nat)
    (hs : src_size < pre.length + 1 + tc) :
    to_png_body (pre ++ 1 :: rest) src_size B tc pc n pal c ⟨pre.length, out⟩
      = Except.ok (to_png_flow.ret pelx_result_t.io_error) := by
  simp [to_png_body, read_src_at, PELX_tag_void, PELX_tag_true, bind, Except.bind, pure,
    Except.pure, hs]

theorem body_pale_truncated (pre rest : List Nat) (src_size B tc pc n : Nat)
    (pal : List pelx_palette_entry_t) (c : Nat) (out : List Nat)
    (hs : src_size < pre.length + 1 + 1) :
    to_png_body (pre ++ 2 :: rest) src_size B tc pc n pal c ⟨pre.length, out⟩
      = Except.ok (to_png_flow.ret pelx_result_t.io_error) := by
  simp [to_png_body, read_src_at, PELX_tag_void, PELX_tag_true, PELX_tag_pale, bind,
    Except.bind, pure, Except.pure, hs]

theorem sanitize_kind (h : pelx_header_t) :
    (pelx_sanitize_header_f (some h)).1 ≠ pelx_result_t.mismatched_palettes := by
  unfold pelx_sanitize_header_f
  simp only []
  repeat' split
  all_goals (intro hk; cases hk)

theorem sanitize_palette_count (h : pelx_header_t) (count1 count2 : Nat)
    (h1 : count1 ≠ 0) (h2 : count2 ≠ 0) :
    (pelx_sanitize_header_f (some { h with palette_count := count1 })).1
      = (pelx_sanitize_header_f (some { h with palette_count := count2 })).1 := by
  simp only [pelx_sanitize_header_f, h1, h2, if_false]
  split_ifs <;> rfl

/-! ## Bodies that hold only void tags -/

theorem stream_of_void (k : Nat) :
    stream_of (List.replicate k pelx_record.void) = List.replicate k 0x00 := by
  induction k with
  | zero => rfl
  | succ k ih => simp [List.replicate_succ, stream_of_cons, ih, pelx_record.bytes]

theorem pixels_of_void (tc pc : Nat) (pal : List pelx_palette_entry_t) (c k : Nat) :
    pixels_of tc pc pal c (List.replicate k pelx_record.void) = List.replicate (k * c) 0x00 := by
  induction k with
  | zero => simp [pixels_of]
  | succ k ih =>
    rw [List.replicate_succ, pixels_of_cons, ih, pelx_record.pixel, Nat.add_mul, Nat.one_mul,
      Nat.add_comm (k * c) c, List.replicate_add]

/-! ## Simulation of the 4-channel run by the 3-channel run -/

theorem drop_alpha_append (k : Nat) :
    ∀ (l m : List Nat), l.length = 4 * k → drop_alpha (l ++ m) = drop_alpha l ++ drop_alpha m := by
  induction k with
  | zero =>
    intro l m hl
    have : l = [] := List.length_eq_zero.mp (by simpa using hl)
    subst this
    simp [drop_alpha]
  | succ k ih =>
    intro l m hl
    match l, hl with
    | r :: g :: b :: a :: t, hl =>
      have ht : t.length = 4 * k := by
        simp only [List.length_cons] at hl
        omega
      simp [drop_alpha, ih t m ht]

theorem read_src_ok (src : List Nat) (i : Nat) (h : i < src.length) :
    ∃ b, read_src src i = Except.ok b := by
  refine ⟨src[i], ?_⟩
  simp [read_src, List.getElem?_eq_getElem h]

theorem body_channels (src : List Nat) (src_size N tc pc n : Nat)
    (pal : List pelx_palette_entry_t) (k : Nat) (s3 s4 : to_png_state)
    (htc : tc = 3 ∨ tc = 4) (hlen : src_size ≤ src.length)
    (hrel : channels_rel k s3 s4) (hk : k < N) (hpos : s3.src_pos < src_size) :
    flow_rel
      (to_png_body src src_size (N * 3) tc pc n pal 3 s3)
      (to_png_body src src_size (N * 4) tc pc n pal 4 s4) := by
  obtain ⟨p, o3⟩ := s3
  obtain ⟨p4, o4⟩ := s4
  obtain ⟨hp, h3, h4, hd⟩ := hrel
  simp only [] at hp h3 h4 hd hpos
  subst hp
  obtain ⟨t, ht⟩ := read_src_ok src p (by omega)
  have w31 : o3.length < N * 3 := by omega
  have w32 : o3.length + 1 < N * 3 := by omega
  have w33 : o3.length + 1 + 1 < N * 3 := by omega
  have w41 : o4.length < N * 4 := by omega
  have w42 : o4.length + 1 < N * 4 := by omega
  have w43 : o4.length + 1 + 1 < N * 4 := by omega
  have w44 : o4.length + 1 + 1 + 1 < N * 4 := by omega
  have key : ∀ (q x y z a : Nat),
      channels_rel (k + 1) ⟨q, o3 ++ [x, y, z]⟩ ⟨q, o4 ++ [x, y, z, a]⟩ := by
    intro q x y z a
    refine ⟨rfl, ?_, ?_, ?_⟩
    · simp only [List.length_append, List.length_cons, List.length_nil]; omega
    · simp only [List.length_append, List.length_cons, List.length_nil]; omega
    · simp only []
      rw [drop_alpha_append k o4 _ h4, ← hd]
      rfl
  by_cases t0 : t = 0
  · subst t0
    simp [to_png_body, ht, PELX_tag_void, bind, Except.bind, pure, Except.pure, write_out,
      w31, w32, w33, w41, w42, w43, w44, flow_rel]
    exact ⟨k + 1, key _ 0 0 0 0⟩
  by_cases t1 : t = 1
  · subst t1
    by_cases hs : src_size < p + 1 + tc
    · simp [to_png_body, ht, PELX_tag_void, PELX_tag_true, bind, Except.bind, pure,
        Except.pure, hs, flow_rel]
    · obtain ⟨x, hx⟩ := read_src_ok src (p + 1) (by omega)
      obtain ⟨y, hy⟩ := read_src_ok src (p + 2) (by omega)
      obtain ⟨z, hz⟩ := read_src_ok src (p + 3) (by omega)
      rcases htc with rfl | rfl
      · simp [to_png_body, ht, PELX_tag_void, PELX_tag_true, bind, Except.bind, pure,
          Except.pure, hs, hx, hy, hz, Nat.add_assoc, write_out,
          w31, w32, w33, w41, w42, w43, w44, flow_rel]
        exact ⟨k + 1, key _ x y z 0xFF⟩
      · obtain ⟨a, ha⟩ := read_src_ok src (p + 4) (by omega)
        simp [to_png_body, ht, PELX_tag_void, PELX_tag_true, bind, Except.bind, pure,
          Except.pure, hs, hx, hy, hz, ha, Nat.add_assoc, write_out,
          w31, w32, w33, w41, w42, w43, w44, flow_rel]
        exact ⟨k + 1, key _ x y z a⟩
  by_cases t2 : t = 2
  · subst t2
    by_cases hs : src_size < p + 1 + 1
    · simp [to_png_body, ht, PELX_tag_void, PELX_tag_true, PELX_tag_pale, bind, Except.bind,
        pure, Except.pure, hs, flow_rel]
    · obtain ⟨i, hi⟩ := read_src_ok src (p + 1) (by omega)
      by_cases hn : n ≤ i
      · simp [to_png_body, ht, PELX_tag_void, PELX_tag_true, PELX_tag_pale, bind,
          Except.bind, pure, Except.pure, hs, hi, hn, flow_rel]
      · cases hpal : read_palette pal i with
        | error e =>
          simp [to_png_body, ht, PELX_tag_void, PELX_tag_true, PELX_tag_pale, bind,
            Except.bind, pure, Except.pure, hs, hi, hn, hpal, flow_rel]
        | ok entry =>
          by_cases hpc : pc = 4
          · simp [to_png_body, ht, PELX_tag_void, PELX_tag_true, PELX_tag_pale, bind,
              Except.bind, pure, Except.pure, hs, hi, hn, hpal, hpc, Nat.add_assoc, write_out,
              w31, w32, w33, w41, w42, w43, w44, flow_rel]
            exact ⟨k + 1, key _ entry.r entry.g entry.b entry.a⟩
          · simp [to_png_body, ht, PELX_tag_void, PELX_tag_true, PELX_tag_pale, bind,
              Except.bind, pure, Except.pure, hs, hi, hn, hpal, hpc, Nat.add_assoc, write_out,
              w31, w32, w33, w41, w42, w43, w44, flow_rel]
            exact ⟨k + 1, key _ entry.r entry.g entry.b 0xFF⟩
  simp [to_png_body, ht, PELX_tag_void, PELX_tag_true, PELX_tag_pale, bind, Except.bind,
    pure, Except.pure, t0, t1, t2, flow_rel]

theorem loop_channels (src : List Nat) (src_size N tc pc n : Nat)
    (pal : List pelx_palette_entry_t)
    (htc : tc = 3 ∨ tc = 4) (hlen : src_size ≤ src.length) :
    ∀ (fuel k : Nat) (s3 s4 : to_png_state), channels_rel k s3 s4 →
      flow_rel
        (to_png_loop src src_size (N * 3) tc pc n pal 3 fuel s3)
        (to_png_loop src src_size (N * 4) tc pc n pal 4 fuel s4) := by
  intro fuel
  induction fuel with
  | zero =>
    intro k s3 s4 hrel
    obtain ⟨hp, h3, h4, hd⟩ := hrel
    by_cases g : k < N ∧ s3.src_pos < src_size
    · have g3 : s3.out.length < N * 3 ∧ s3.src_pos < src_size := ⟨by omega, g.2⟩
      have g4 : s4.out.length < N * 4 ∧ s4.src_pos < src_size := ⟨by omega, by omega⟩
      rw [to_png_loop, to_png_loop]
      simp only [to_png_state.out_pos, g3, g4, and_self, if_true, flow_rel]
    · have g3 : ¬ (s3.out.length < N * 3 ∧ s3.src_pos < src_size) := by omega
      have g4 : ¬ (s4.out.length < N * 4 ∧ s4.src_pos < src_size) := by omega
      rw [loop_exit _ _ _ _ _ _ _ _ _ _ g3, loop_exit _ _ _ _ _ _ _ _ _ _ g4]
      exact ⟨k, hp, h3, h4, hd⟩
  | succ f ih =>
    intro k s3 s4 hrel
    by_cases g : k < N ∧ s3.src_pos < src_size
    · have hb := body_channels src src_size N tc pc n pal k s3 s4 htc hlen hrel g.1 g.2
      obtain ⟨hp, h3, h4, hd⟩ := hrel
      have g3 : s3.out.length < N * 3 ∧ s3.src_pos < src_size := ⟨by omega, g.2⟩
      have g4 : s4.out.length < N * 4 ∧ s4.src_pos < src_size := ⟨by omega, by omega⟩
      rw [loop_step _ _ _ _ _ _ _ _ _ _ g3, loop_step _ _ _ _ _ _ _ _ _ _ g4]
      cases b3 : to_png_body src src_size (N * 3) tc pc n pal 3 s3 with
      | error e3 =>
        cases b4 : to_png_body src src_size (N * 4) tc pc n pal 4 s4 with
        | error e4 =>
          rw [b3, b4] at hb
          exact hb
        | ok v4 =>
          rw [b3, b4] at hb
          cases v4 <;> exact absurd hb (by simp [flow_rel])
      | ok v3 =>
        cases b4 : to_png_body src src_size (N * 4) tc pc n pal 4 s4 with
        | error e4 =>
          rw [b3, b4] at hb
          cases v3 <;> exact absurd hb (by simp [flow_rel])
        | ok v4 =>
          rw [b3, b4] at hb
          cases v3 with
          | next n3 =>
            cases v4 with
            | next n4 =>
              obtain ⟨k', hk'⟩ := hb
              exact ih k' n3 n4 hk'
            | ret r4 => exact absurd hb (by simp [flow_rel])
          | ret r3 =>
            cases v4 with
            | next n4 => exact absurd hb (by simp [flow_rel])
            | ret r4 => exact hb
    · obtain ⟨hp, h3, h4, hd⟩ := hrel
      have g3 : ¬ (s3.out.length < N * 3 ∧ s3.src_pos < src_size) := by omega
      have g4 : ¬ (s4.out.length < N * 4 ∧ s4.src_pos < src_size) := by omega
      rw [loop_exit _ _ _ _ _ _ _ _ _ _ g3, loop_exit _ _ _ _ _ _ _ _ _ _ g4]
      exact ⟨k, hp, h3, h4, hd⟩

/-! ## The magic bytes -/

theorem magic_bytes : ['P'.toNat, 'E'.toNat, 'L'.toNat, 'X'.toNat, 0] = PELX_magic := by
  decide

/-! ## Reads and writes of the container codec -/

theorem and_ff (x : Nat) : x &&& 0xFF = x % 2 ^ 8 :=
  Nat.and_pow_two_sub_one_eq_mod x 8

theorem write_uint8_eq (fp : List Nat) (v : Nat) : pelx_write_uint8_f fp v = fp ++ [v] := by
  simp [pelx_write_uint8_f, fwrite]

theorem write_uint16_eq (fp : List Nat) (v : Nat) :
    pelx_write_uint16_f fp v = fp ++ be16_bytes v := by
  simp only [pelx_write_uint16_f, fwrite, be16_bytes, and_ff, Nat.shiftRight_eq_div_pow]
  simp

theorem write_uint32_eq (fp : List Nat) (v : Nat) :
    pelx_write_uint32_f fp v = fp ++ be32_bytes v := by
  simp only [pelx_write_uint32_f, fwrite, be32_bytes, and_ff, Nat.shiftRight_eq_div_pow]
  simp

theorem or_shift8 (a b : Nat) (hb : b < 2 ^ 8) : (a <<< 8) ||| b = a * 2 ^ 8 + b := by
  rw [Nat.shiftLeft_eq, Nat.mul_comm]
  exact (Nat.mul_add_lt_is_or hb a).symm

theorem or_shift32 (a b c d : Nat) (hb : b < 2 ^ 8) (hc : c < 2 ^ 8) (hd : d < 2 ^ 8) :
    (a <<< 24) ||| (b <<< 16) ||| (c <<< 8) ||| d
      = a * 2 ^ 24 + b * 2 ^ 16 + c * 2 ^ 8 + d := by
  have h1 : (a <<< 24) ||| (b <<< 16) = a * 2 ^ 24 + b * 2 ^ 16 := by
    rw [Nat.shiftLeft_eq, Nat.shiftLeft_eq, Nat.mul_comm a]
    exact (Nat.mul_add_lt_is_or (i := 24) (by omega) a).symm
  have h2 : (a * 2 ^ 24 + b * 2 ^ 16) ||| (c <<< 8) = a * 2 ^ 24 + b * 2 ^ 16 + c * 2 ^ 8 := by
    rw [Nat.shiftLeft_eq]
    have e : a * 2 ^ 24 + b * 2 ^ 16 = 2 ^ 16 * (a * 2 ^ 8 + b) := by omega
    rw [e]
    exact (Nat.mul_add_lt_is_or (i := 16) (by omega) _).symm
  have h3 : (a * 2 ^ 24 + b * 2 ^ 16 + c * 2 ^ 8) ||| d
      = a * 2 ^ 24 + b * 2 ^ 16 + c * 2 ^ 8 + d := by
    have e : a * 2 ^ 24 + b * 2 ^ 16 + c * 2 ^ 8 = 2 ^ 8 * (a * 2 ^ 16 + b * 2 ^ 8 + c) := by
      omega
    rw [e]
    exact (Nat.mul_add_lt_is_or (i := 8) hd _).symm
  rw [h1, h2, h3]

theorem slice_length (f : List Nat) (p n : Nat) :
    ((f.drop p).take n).length = min n (f.length - p) := by
  simp

theorem slice_succ (f : List Nat) (p n : Nat) (h : p + 1 ≤ f.length) :
    (f.drop p).take (n + 1) = f.getD p 0 :: (f.drop (p + 1)).take n := by
  have hp : p < f.length := by omega
  have hg : f.getD p 0 = f[p] := by
    simp [List.getD_eq_getElem?_getD, List.getElem?_eq_getElem hp]
  rw [hg, List.drop_eq_getElem_cons hp]
  rfl

theorem read_uint8_eq (f : List Nat) (p : Nat) :
    pelx_read_uint8_f ⟨f, p⟩
      = if p + 1 ≤ f.length then some (f.getD p 0, ⟨f, p + 1⟩) else none := by
  unfold pelx_read_uint8_f fread
  split_ifs with h
  · simp [slice_succ f p 0 h]
  · have hl := slice_length f p 1
    generalize (f.drop p).take 1 = l at hl
    match l, hl with
    | [], _ => rfl
    | [a], hl =>
      simp at hl
      omega
    | a :: b :: t, hl =>
      simp at hl
      omega

theorem read_uint16_eq (f : List Nat) (p : Nat) :
    pelx_read_uint16_f ⟨f, p⟩
      = if p + 2 ≤ f.length then
          some ((f.getD p 0 <<< 8) ||| f.getD (p + 1) 0, ⟨f, p + 2⟩)
        else none := by
  unfold pelx_read_uint16_f fread
  split_ifs with h
  · simp [slice_succ f p 1 (by omega), slice_succ f (p + 1) 0 (by omega)]
  · have hl := slice_length f p 2
    generalize (f.drop p).take 2 = l at hl
    match l, hl with
    | [], _ => rfl
    | [a], _ => rfl
    | [a, b], hl =>
      simp at hl
      omega
    | a :: b :: c :: t, hl =>
      simp at hl
      omega

theorem read_uint32_eq (f : List Nat) (p : Nat) :
    pelx_read_uint32_f ⟨f, p⟩
      = if p + 4 ≤ f.length then
          some ((f.getD p 0 <<< 24) ||| (f.getD (p + 1) 0 <<< 16) |||
            (f.getD (p + 2) 0 <<< 8) ||| f.getD (p + 3) 0, ⟨f, p + 4⟩)
        else none := by
  unfold pelx_read_uint32_f fread
  split_ifs with h
  · simp [slice_succ f p 3 (by omega), slice_succ f (p + 1) 2 (by omega),
      slice_succ f (p + 2) 1 (by omega), slice_succ f (p + 3) 0 (by omega)]
  · have hl := slice_length f p 4
    generalize (f.drop p).take 4 = l at hl
    match l, hl with
    | [], _ => rfl
    | [a], _ => rfl
    | [a, b], _ => rfl
    | [a, b, c], _ => rfl
    | [a, b, c, d], hl =>
      simp at hl
      omega
    | a :: b :: c :: d :: e :: t, hl =>
      simp at hl
      omega

theorem bind_ite {α β : Type} (c : Prop) [Decidable c] (x : α) (g : α → Option β) :
    ((if c then some x else none) >>= g) = if c then g x else none := by
  split_ifs <;> rfl

theorem fread_full (n : Nat) (f : List Nat) (p : Nat) (h : p + n ≤ f.length) :
    fread n ⟨f, p⟩ = ((f.drop p).take n, ⟨f, p + n⟩) := by
  have hl := slice_length f p n
  simp only [fread, hl]
  rw [Nat.min_eq_left (by omega)]

theorem fread_short (n : Nat) (f : List Nat) (p : Nat) (hn : 0 < n)
    (h : f.length < p + n) :
    (fread n ⟨f, p⟩).1.length ≠ n := by
  simp only [fread, slice_length]
  have := Nat.min_le_right n (f.length - p)
  omega

theorem decode_header_raw (f : List Nat) (h : 26 ≤ f.length) :
    decode_pelx_header ⟨f, 0⟩ = some
      ({ magic := f.take 5,
         header_size := (f.getD 5 0 <<< 24) ||| (f.getD 6 0 <<< 16) ||| (f.getD 7 0 <<< 8)
           ||| f.getD 8 0,
         palette_offset := (f.getD 9 0 <<< 24) ||| (f.getD 10 0 <<< 16) |||
           (f.getD 11 0 <<< 8) ||| f.getD 12 0,
         width := (f.getD 13 0 <<< 8) ||| f.getD 14 0,
         height := (f.getD 15 0 <<< 8) ||| f.getD 16 0,
         palette_channel_count := f.getD 17 0,
         true_channel_count := f.getD 18 0,
         palette_count := (f.getD 19 0 <<< 8) ||| f.getD 20 0,
         reserved := (f.drop 21).take 5 }, ⟨f, 26⟩) := by
  have h5 : 5 ≤ f.length := by omega
  have h9 : 9 ≤ f.length := by omega
  have h13 : 13 ≤ f.length := by omega
  have h15 : 15 ≤ f.length := by omega
  have h17 : 17 ≤ f.length := by omega
  have h18 : 18 ≤ f.length := by omega
  have h19 : 19 ≤ f.length := by omega
  have h21 : 21 ≤ f.length := by omega
  have hr : 5 ≤ f.length - 21 := by omega
  unfold decode_pelx_header
  rw [fread_full 5 f 0 (by omega)]
  simp only [read_uint8_eq, read_uint16_eq, read_uint32_eq, bind_ite, pure]
  simp [h5, h9, h13, h15, h17, h18, h19, h21, hr, fread_full 5 f 21 (by omega), bind_ite]

theorem decode_header_short (f : List Nat) (h : f.length < 26) :
    decode_pelx_header ⟨f, 0⟩ = none := by
  unfold decode_pelx_header
  by_cases h5 : 5 ≤ f.length
  · rw [fread_full 5 f 0 (by omega)]
    simp only [read_uint8_eq, read_uint16_eq, read_uint32_eq, bind_ite, pure]
    simp [h5, bind_ite]
    intro h9 h13 h15 h17 h18 h19 h21
    exact fread_short 5 f 21 (by omega) (by omega)
  · have := fread_short 5 f 0 (by omega) (by omega)
    simp [this]

theorem getD_lt_of_bytes (f : List Nat) (hb : ∀ b ∈ f, b < 2 ^ 8) (i : Nat) :
    f.getD i 0 < 2 ^ 8 := by
  by_cases hi : i < f.length
  · rw [List.getD_eq_getElem?_getD, List.getElem?_eq_getElem hi]
    exact hb _ (List.getElem_mem hi)
  · rw [List.getD_eq_getElem?_getD, List.getElem?_eq_none (by omega)]
    decide

theorem decode_header_ok (f : List Nat) (h : 26 ≤ f.length)
    (hb : ∀ i, i < 26 → f.getD i 0 < 2 ^ 8) :
    decode_pelx_header ⟨f, 0⟩ = some (header_at f, ⟨f, 26⟩) := by
  rw [decode_header_raw f h]
  simp only [header_at, be32_at, be16_at,
    or_shift32 _ _ _ _ (hb 6 (by decide)) (hb 7 (by decide)) (hb 8 (by decide)),
    or_shift32 _ _ _ _ (hb 10 (by decide)) (hb 11 (by decide)) (hb 12 (by decide)),
    or_shift8 _ _ (hb 14 (by decide)), or_shift8 _ _ (hb 16 (by decide)),
    or_shift8 _ _ (hb 20 (by decide))]

theorem decode_eq (f : List Nat) (prior : Option pelx_file_data_t)
    (hlen : f.length < 2 ^ 32) (hb : ∀ i, i < 26 → f.getD i 0 < 2 ^ 8) :
    pelx_decode_pelx_f (some f) true true prior =
      if 26 ≤ f.length ∧ be32_at f 5 ≤ f.length then
        (pelx_result_t.success,
          some { header := header_at f,
                 body := { size := (f.length - be32_at f 5) % 2 ^ 16,
                           data := f.drop (be32_at f 5) } })
      else (pelx_result_t.invalid_data_format, prior) := by
  unfold pelx_decode_pelx_f
  by_cases h26 : 26 ≤ f.length
  · simp only [decode_header_ok f h26 hb, Bool.true_eq_false, if_false,
      Nat.mod_eq_of_lt hlen]
    have hs : (header_at f).header_size = be32_at f 5 := rfl
    by_cases hh : be32_at f 5 ≤ f.length
    · have hh2 : ¬ (be32_at f 5 > f.length) := by omega
      simp only [hs, hh2, if_false, h26, hh, and_self, if_true, fread]
      have hl : (List.take (f.length - be32_at f 5) (List.drop (be32_at f 5) f)).length
          = f.length - be32_at f 5 := by
        simp
      have ht : List.take (f.length - be32_at f 5) (List.drop (be32_at f 5) f)
          = List.drop (be32_at f 5) f := by
        apply List.take_of_length_le
        simp
      rw [ht]
      simp
    · have hh2 : be32_at f 5 > f.length := by omega
      simp only [hs, hh2, if_true, hh, and_false, if_false]
  · simp only [decode_header_short f (by omega), Bool.true_eq_false, if_false, h26,
      false_and]

theorem slice_append (f : List Nat) (p a b : Nat) :
    (f.drop p).take a ++ (f.drop (p + a)).take b = (f.drop p).take (a + b) := by
  rw [List.take_add, List.drop_drop]

theorem be16_bytes_at (f : List Nat) (p : Nat) (h : p + 2 ≤ f.length)
    (h0 : f.getD p 0 < 2 ^ 8) (h1 : f.getD (p + 1) 0 < 2 ^ 8) :
    be16_bytes (be16_at f p) = (f.drop p).take 2 := by
  rw [slice_succ f p 1 (by omega), slice_succ f (p + 1) 0 (by omega)]
  simp only [be16_bytes, be16_at, List.take_zero]
  congr 1
  · omega
  · congr 1
    omega

theorem be32_bytes_at (f : List Nat) (p : Nat) (h : p + 4 ≤ f.length)
    (h0 : f.getD p 0 < 2 ^ 8) (h1 : f.getD (p + 1) 0 < 2 ^ 8)
    (h2 : f.getD (p + 2) 0 < 2 ^ 8) (h3 : f.getD (p + 3) 0 < 2 ^ 8) :
    be32_bytes (be32_at f p) = (f.drop p).take 4 := by
  rw [slice_succ f p 3 (by omega), slice_succ f (p + 1) 2 (by omega),
    slice_succ f (p + 2) 1 (by omega), slice_succ f (p + 3) 0 (by omega)]
  simp only [be32_bytes, be32_at, List.take_zero]
  congr 1
  · omega
  · congr 1
    · omega
    · congr 1
      · omega
      · congr 1
        omega

theorem header_bytes_header_at (f : List Nat) (h : 26 ≤ f.length)
    (hb : ∀ i, i < 26 → f.getD i 0 < 2 ^ 8) :
    header_bytes (header_at f) = f.take 26 := by
  simp only [header_bytes, header_at]
  rw [be32_bytes_at f 5 (by omega) (hb 5 (by decide)) (hb 6 (by decide)) (hb 7 (by decide))
      (hb 8 (by decide)),
    be32_bytes_at f 9 (by omega) (hb 9 (by decide)) (hb 10 (by decide)) (hb 11 (by decide))
      (hb 12 (by decide)),
    be16_bytes_at f 13 (by omega) (hb 13 (by decide)) (hb 14 (by decide)),
    be16_bytes_at f 15 (by omega) (hb 15 (by decide)) (hb 16 (by decide)),
    be16_bytes_at f 19 (by omega) (hb 19 (by decide)) (hb 20 (by decide))]
  have e17 : [f.getD 17 0] = (f.drop 17).take 1 := by
    rw [slice_succ f 17 0 (by omega)]
    rfl
  have e18 : [f.getD 18 0] = (f.drop 18).take 1 := by
    rw [slice_succ f 18 0 (by omega)]
    rfl
  have e0 : f.take 5 = (f.drop 0).take 5 := rfl
  have e26 : f.take 26 = (f.drop 0).take 26 := rfl
  rw [e17, e18, e0, e26, slice_append f 0 5 4, slice_append f 0 9 4, slice_append f 0 13 2,
    slice_append f 0 15 2, slice_append f 0 17 1, slice_append f 0 18 1,
    slice_append f 0 19 2, slice_append f 0 21 5]

theorem encode_eq (c : pelx_file_data_t) (hm : c.header.magic.length = 5)
    (hr : c.header.reserved.length = 5) (hs : c.body.size ≤ c.body.data.length) :
    pelx_encode_pelx_f true c
      = Except.ok (pelx_result_t.success,
          some (header_bytes c.header ++ c.body.data.take c.body.size)) := by
  have hs2 : ¬ (c.body.data.length < c.body.size) := by omega
  simp only [pelx_encode_pelx_f, fwrite, write_uint8_eq, write_uint16_eq, write_uint32_eq,
    Bool.true_eq_false, if_false, ne_eq, not_true_eq_false, hs2, header_bytes,
    List.nil_append, List.take_of_length_le (Nat.le_of_eq hm),
    List.take_of_length_le (Nat.le_of_eq hr)]

theorem header_bytes_length (h : pelx_header_t) (hm : h.magic.length = 5)
    (hr : h.reserved.length = 5) : (header_bytes h).length = 26 := by
  simp [header_bytes, be32_bytes, be16_bytes, hm, hr]

theorem header_at_header_bytes (h : pelx_header_t) (body : List Nat) (hr : h.in_range) :
    header_at (header_bytes h ++ body) = h := by
  obtain ⟨hm, _, h1, h2, h3, h4, _, _, h7, hres, _⟩ := hr
  obtain ⟨magic, header_size, palette_offset, width, height, pcc, tcc, palette_count,
    reserved⟩ := h
  simp only [] at hm h1 h2 h3 h4 h7 hres
  obtain ⟨m0, m1, m2, m3, m4, rfl⟩ : ∃ m0 m1 m2 m3 m4, magic = [m0, m1, m2, m3, m4] := by
    match magic, hm with
    | [m0, m1, m2, m3, m4], _ => exact ⟨m0, m1, m2, m3, m4, rfl⟩
  obtain ⟨r0, r1, r2, r3, r4, rfl⟩ : ∃ r0 r1 r2 r3 r4, reserved = [r0, r1, r2, r3, r4] := by
    match reserved, hres with
    | [r0, r1, r2, r3, r4], _ => exact ⟨r0, r1, r2, r3, r4, rfl⟩
  simp only [header_at, header_bytes, be32_bytes, be16_bytes, be32_at, be16_at,
    List.cons_append, List.nil_append, List.take, List.drop, List.getD_cons_zero,
    List.getD_cons_succ, List.getD_eq_getElem?_getD, List.getElem?_cons_zero,
    List.getElem?_cons_succ, Option.getD_some]
  congr 1 <;> omega

theorem header_bytes_lt (h : pelx_header_t) (body : List Nat) (hr : h.in_range) :
    ∀ i, i < 26 → (header_bytes h ++ body).getD i 0 < 2 ^ 8 := by
  obtain ⟨hm, hmb, _, _, _, _, h5, h6, _, hres, hrb⟩ := hr
  have hall : ∀ b ∈ header_bytes h, b < 2 ^ 8 := by
    intro b hb
    simp only [header_bytes, be32_bytes, be16_bytes, List.mem_append, List.mem_cons,
      List.mem_singleton, List.not_mem_nil, or_false] at hb
    rcases hb with ((((((((hb | hb) | hb) | hb) | hb) | hb) | hb) | hb) | hb)
    · exact hmb b hb
    · rcases hb with rfl | rfl | rfl | rfl <;> omega
    · rcases hb with rfl | rfl | rfl | rfl <;> omega
    · rcases hb with rfl | rfl <;> omega
    · rcases hb with rfl | rfl <;> omega
    · subst hb; exact h5
    · subst hb; exact h6
    · rcases hb with rfl | rfl <;> omega
    · exact hrb b hb
  intro i hi
  have hl := header_bytes_length h hm hres
  rw [List.getD_eq_getElem?_getD, List.getElem?_append_left (by omega),
    List.getElem?_eq_getElem (by omega)]
  exact hall _ (List.getElem_mem _)

theorem decode_header_bytes (h : pelx_header_t) (body : List Nat)
    (prior : Option pelx_file_data_t) (hr : h.in_range) (hs : h.header_size = 26)
    (hlen : 26 + body.length < 2 ^ 32) :
    pelx_decode_pelx_f (some (header_bytes h ++ body)) true true prior
      = (pelx_result_t.success,
          some { header := h, body := { size := body.length % 2 ^ 16, data := body } }) := by
  have hl := header_bytes_length h hr.1 hr.2.2.2.2.2.2.2.2.2.1
  have hfl : (header_bytes h ++ body).length = 26 + body.length := by
    rw [List.length_append, hl]
  have hat := header_at_header_bytes h body hr
  have h5 : be32_at (header_bytes h ++ body) 5 = 26 := by
    have : (header_at (header_bytes h ++ body)).header_size = 26 := by rw [hat, hs]
    exact this
  rw [decode_eq _ prior (by omega) (header_bytes_lt h body hr), h5, hat, hfl]
  have hd : List.drop 26 (header_bytes h ++ body) = body := by
    rw [← hl]
    exact List.drop_left _ _
  rw [hd, if_pos ⟨by omega, by omega⟩]
  simp

theorem decode_header_content (f : List Nat) (h : pelx_header_t) (fp : FILE)
    (hd : decode_pelx_header ⟨f, 0⟩ = some (h, fp)) : fp.content = f := by
  by_cases h26 : 26 ≤ f.length
  · rw [decode_header_raw f h26] at hd
    injection hd with hd
    injection hd with _ hd
    rw [← hd]
  · rw [decode_header_short f (by omega)] at hd
    cases hd

/-! ## The cursor invariant of the loop -/

theorem body_out_exact (src : List Nat) (src_size B tc pc n : Nat)
    (pal : List pelx_palette_entry_t) (c : Nat) (s s' : to_png_state)
    (hc : c = 3 ∨ c = 4)
    (h : to_png_body src src_size B tc pc n pal c s = Except.ok (to_png_flow.next s')) :
    s'.out.length = s.out.length + c := by
  rcases hc with rfl | rfl
  · exact (body_out_length _ _ _ _ _ _ _ _ _ _ h).2 (by decide)
  · unfold to_png_body at h
    simp only [bind, Except.bind, pure, Except.pure] at h
    repeat' split at h
    all_goals (cases h <;> simp_all [write_out_ok_iff])

theorem iteration_guard (src : List Nat) (src_size B tc pc n : Nat)
    (pal : List pelx_palette_entry_t) (c k : Nat) (s : to_png_state)
    (h : to_png_iteration src src_size B tc pc n pal c k = some s) :
    s.out.length < B ∧ s.src_pos < src_size := by
  cases k with
  | zero =>
    rw [to_png_iteration] at h
    split at h
    · rename_i g
      cases h
      exact g
    · cases h
  | succ k =>
    rw [to_png_iteration] at h
    split at h
    · cases h
    · split at h
      · split at h
        · rename_i g
          cases h
          exact g
        · cases h
      · cases h

theorem iteration_invariant (src : List Nat) (src_size N tc pc n : Nat)
    (pal : List pelx_palette_entry_t) (c : Nat) (hc : c = 3 ∨ c = 4) :
    ∀ (k : Nat) (s : to_png_state),
      to_png_iteration src src_size (N * c) tc pc n pal c k = some s →
      s.out.length = k * c ∧ k < N ∧ k ≤ s.src_pos ∧ s.src_pos < src_size := by
  have hcpos : 0 < c := by omega
  intro k
  induction k with
  | zero =>
    intro s h
    have g := iteration_guard _ _ _ _ _ _ _ _ _ _ h
    rw [to_png_iteration] at h
    split at h
    · cases h
      refine ⟨by simp, ?_, Nat.le_refl _, g.2⟩
      have g1 := g.1
      simp only [List.length_nil] at g1
      exact Nat.pos_of_ne_zero (fun h0 => by simp [h0] at g1)
    · cases h
  | succ k ih =>
    intro s h
    have g := iteration_guard _ _ _ _ _ _ _ _ _ _ h
    rw [to_png_iteration] at h
    split at h
    · cases h
    · rename_i s0 h0
      obtain ⟨i1, i2, i3, i4⟩ := ih s0 h0
      split at h
      · rename_i s1 hb
        split at h
        · cases h
          have ho := body_out_exact _ _ _ _ _ _ _ _ _ _ hc hb
          have ha := body_advances _ _ _ _ _ _ _ _ _ _ hb
          have hlen : s.out.length = (k + 1) * c := by
            rw [ho, i1, Nat.add_mul, Nat.one_mul]
          refine ⟨hlen, ?_, by omega, g.2⟩
          have g1 := g.1
          rw [hlen] at g1
          exact Nat.lt_of_mul_lt_mul_right g1
        · cases h
      · cases h

theorem read_both (src : List Nat) (src_size i : Nat) (hi : i < src_size)
    (hlen : src_size ≤ src.length) :
    ∃ b, read_src src i = Except.ok b ∧ read_src (src.take src_size) i = Except.ok b := by
  have h1 : i < src.length := by omega
  refine ⟨src[i], ?_, ?_⟩
  · simp [read_src, List.getElem?_eq_getElem h1]
  · simp [read_src, List.getElem?_take, hi, List.getElem?_eq_getElem h1]

theorem palette_both (pal : List pelx_palette_entry_t) (n i : Nat) (hi : i < n)
    (hn : n ≤ pal.length) :
    ∃ e, read_palette pal i = Except.ok e ∧ read_palette (pal.take n) i = Except.ok e := by
  have h1 : i < pal.length := by omega
  refine ⟨pal[i], ?_, ?_⟩
  · simp [read_palette, List.getElem?_eq_getElem h1]
  · simp [read_palette, List.getElem?_take, hi, List.getElem?_eq_getElem h1]

theorem body_in_bounds (src : List Nat) (src_size B tc pc n : Nat)
    (pal : List pelx_palette_entry_t) (c : Nat) (s : to_png_state)
    (hc : c = 3 ∨ c = 4) (htc : tc = 3 ∨ tc = 4)
    (hlen : src_size ≤ src.length) (hn : n ≤ pal.length)
    (hout : s.out.length + c ≤ B) (hpos : s.src_pos < src_size) :
    ∃ flow,
      to_png_body src src_size B tc pc n pal c s = Except.ok flow ∧
      to_png_body (src.take src_size) src_size B tc pc n (pal.take n) c s
        = Except.ok flow := by
  obtain ⟨p, o⟩ := s
  simp only [] at hout hpos
  obtain ⟨t, ht, ht'⟩ := read_both src src_size p hpos hlen
  have w1 : o.length < B := by omega
  have w2 : o.length + 1 < B := by omega
  have w3 : o.length + 1 + 1 < B := by omega
  have w4 : c = 4 → o.length + 1 + 1 + 1 < B := by omega
  by_cases t0 : t = 0
  · subst t0
    rcases hc with rfl | rfl
    · simp [to_png_body, ht, ht', PELX_tag_void, bind, Except.bind, pure, Except.pure,
        write_out, w1, w2, w3]
    · simp [to_png_body, ht, ht', PELX_tag_void, bind, Except.bind, pure, Except.pure,
        write_out, w1, w2, w3, w4 rfl]
  by_cases t1 : t = 1
  · subst t1
    by_cases hs : src_size < p + 1 + tc
    · simp [to_png_body, ht, ht', PELX_tag_void, PELX_tag_true, bind, Except.bind, pure,
        Except.pure, hs]
    · obtain ⟨x, hx, hx'⟩ := read_both src src_size (p + 1) (by omega) hlen
      obtain ⟨y, hy, hy'⟩ := read_both src src_size (p + 2) (by omega) hlen
      obtain ⟨z, hz, hz'⟩ := read_both src src_size (p + 3) (by omega) hlen
      rcases htc with rfl | rfl
      · rcases hc with rfl | rfl
        · simp [to_png_body, ht, ht', PELX_tag_void, PELX_tag_true, bind, Except.bind, pure,
            Except.pure, hs, hx, hy, hz, hx', hy', hz', Nat.add_assoc, write_out, w1, w2, w3]
        · simp [to_png_body, ht, ht', PELX_tag_void, PELX_tag_true, bind, Except.bind, pure,
            Except.pure, hs, hx, hy, hz, hx', hy', hz', Nat.add_assoc, write_out, w1, w2, w3,
            w4 rfl]
      · obtain ⟨a, ha, ha'⟩ := read_both src src_size (p + 4) (by omega) hlen
        rcases hc with rfl | rfl
        · simp [to_png_body, ht, ht', PELX_tag_void, PELX_tag_true, bind, Except.bind, pure,
            Except.pure, hs, hx, hy, hz, hx', hy', hz', Nat.add_assoc, write_out, w1, w2, w3]
        · simp [to_png_body, ht, ht', PELX_tag_void, PELX_tag_true, bind, Except.bind, pure,
            Except.pure, hs, hx, hy, hz, ha, hx', hy', hz', ha', Nat.add_assoc, write_out,
            w1, w2, w3, w4 rfl]
  by_cases t2 : t = 2
  · subst t2
    by_cases hs : src_size < p + 1 + 1
    · simp [to_png_body, ht, ht', PELX_tag_void, PELX_tag_true, PELX_tag_pale, bind,
        Except.bind, pure, Except.pure, hs]
    · obtain ⟨i, hi, hi'⟩ := read_both src src_size (p + 1) (by omega) hlen
      by_cases hni : n ≤ i
      · simp [to_png_body, ht, ht', PELX_tag_void, PELX_tag_true, PELX_tag_pale, bind,
          Except.bind, pure, Except.pure, hs, hi, hi', hni]
      · obtain ⟨e, he, he'⟩ := palette_both pal n i (by omega) hn
        rcases hc with rfl | rfl
        · simp [to_png_body, ht, ht', PELX_tag_void, PELX_tag_true, PELX_tag_pale, bind,
            Except.bind, pure, Except.pure, hs, hi, hi', hni, he, he', Nat.add_assoc,
            write_out, w1, w2, w3]
        · by_cases hpc : pc = 4
          · simp [to_png_body, ht, ht', PELX_tag_void, PELX_tag_true, PELX_tag_pale, bind,
              Except.bind, pure, Except.pure, hs, hi, hi', hni, he, he', hpc, Nat.add_assoc,
              write_out, w1, w2, w3, w4 rfl]
          · simp [to_png_body, ht, ht', PELX_tag_void, PELX_tag_true, PELX_tag_pale, bind,
              Except.bind, pure, Except.pure, hs, hi, hi', hni, he, he', hpc, Nat.add_assoc,
              write_out, w1, w2, w3, w4 rfl]
  simp [to_png_body, ht, ht', PELX_tag_void, PELX_tag_true, PELX_tag_pale, bind, Except.bind,
    pure, Except.pure, t0, t1, t2]

theorem loop_iteration (src : List Nat) (src_size B tc pc n : Nat)
    (pal : List pelx_palette_entry_t) (c : Nat) :
    ∀ (k : Nat) (s : to_png_state),
      to_png_iteration src src_size B tc pc n pal c k = some s →
      ∀ fuel, k ≤ fuel →
        to_png_loop src src_size B tc pc n pal c fuel ⟨0, []⟩
          = to_png_loop src src_size B tc pc n pal c (fuel - k) s := by
  intro k
  induction k with
  | zero =>
    intro s h fuel _
    rw [to_png_iteration] at h
    split at h
    · cases h
      rfl
    · cases h
  | succ k ih =>
    intro s h fuel hfuel
    rw [to_png_iteration] at h
    split at h
    · cases h
    · rename_i s0 h0
      have g0 := iteration_guard _ _ _ _ _ _ _ _ _ _ h0
      rw [ih s0 h0 fuel (by omega)]
      obtain ⟨f, hf⟩ : ∃ f, fuel - k = f + 1 := ⟨fuel - k - 1, by omega⟩
      have hf2 : fuel - (k + 1) = f := by omega
      rw [hf, hf2, loop_step _ _ _ _ _ _ _ _ _ _ g0]
      split at h
      · rename_i s1 hb
        split at h
        · cases h
          rw [hb]
        · cases h
      · cases h

theorem loop_no_fault (src : List Nat) (src_size N tc pc n : Nat)
    (pal : List pelx_palette_entry_t) (c : Nat)
    (hc : c = 3 ∨ c = 4) (htc : tc = 3 ∨ tc = 4)
    (hlen : src_size ≤ src.length) (hn : n ≤ pal.length) :
    ∀ (fuel : Nat) (s : to_png_state) (j : Nat),
      s.out.length = j * c → src_size ≤ fuel + s.src_pos →
      ∃ flow, to_png_loop src src_size (N * c) tc pc n pal c fuel s = Except.ok flow := by
  intro fuel
  induction fuel with
  | zero =>
    intro s j _ hs
    exact ⟨_, loop_exit _ _ _ _ _ _ _ _ _ _ (by omega)⟩
  | succ f ih =>
    intro s j hj hs
    by_cases g : s.out.length < N * c ∧ s.src_pos < src_size
    · rw [loop_step _ _ _ _ _ _ _ _ _ _ g]
      have hjN : j < N := by
        have g1 := g.1
        rw [hj] at g1
        exact Nat.lt_of_mul_lt_mul_right g1
      have hout : s.out.length + c ≤ N * c := by
        have h1 : (j + 1) * c ≤ N * c := Nat.mul_le_mul_right c hjN
        rw [Nat.add_mul, Nat.one_mul] at h1
        omega
      obtain ⟨flow, hb, _⟩ := body_in_bounds src src_size (N * c) tc pc n pal c s hc htc hlen
        hn hout g.2
      rw [hb]
      cases flow with
      | ret r => exact ⟨_, rfl⟩
      | next s' =>
        have ho := body_out_exact _ _ _ _ _ _ _ _ _ _ hc hb
        have ha := body_advances _ _ _ _ _ _ _ _ _ _ hb
        exact ih s' (j + 1) (by rw [ho, hj, Nat.add_mul, Nat.one_mul]) (by omega)
    · exact ⟨_, loop_exit _ _ _ _ _ _ _ _ _ _ g⟩

/-! ## Claims about pelx_to_png_f -/

/-- C1. A body that is exactly the concatenation of `width * height` well-formed records
(with `body.size` equal to its length) is expanded successfully, and the buffer is the
in-order concatenation of one pixel per record. -/
theorem C1_well_formed_stream_expands (d : pelx_file_data_t)
    (pal : List pelx_palette_entry_t) (c : Nat) (prior : Option (List Nat))
    (recs : List pelx_record)
    (hv : (pelx_sanitize_header_f (some d.header)).1 = pelx_result_t.success)
    (hc : c = 3 ∨ c = 4)
    (hsize : d.body.size = d.body.data.length)
    (hdata : d.body.data = stream_of recs)
    (hcount : recs.length = d.header.width * d.header.height)
    (hwf : ∀ r ∈ recs, r.well_formed d.header.true_channel_count pal.length) :
    pelx_to_png_f true d pal.length pal c prior
      = Except.ok (pelx_result_t.success,
          some (pixels_of d.header.true_channel_count d.header.palette_channel_count
            pal c recs)) := by
  have htc := ((sanitize_success_iff d.header).1 hv).2.2.2.1
  have hloop := loop_after_records d pal.length pal c recs [] hv hc
    (expandable_of_well_formed hwf)
    (by omega) (by simpa using hdata) hsize
  have hpx := pixels_of_length d.header.true_channel_count d.header.palette_channel_count
    pal.length pal c hc htc recs (expandable_of_well_formed hwf)
  have hexit := loop_exit d.body.data d.body.size (d.header.width * d.header.height * c)
    d.header.true_channel_count d.header.palette_channel_count pal.length pal c
    (d.body.size - recs.length)
    ⟨(stream_of recs).length,
      pixels_of d.header.true_channel_count d.header.palette_channel_count pal c recs⟩
    (by simp only [hpx, hcount]; omega)
  rw [to_png_of_loop_next d pal.length pal c prior _ hv hc (hloop.trans hexit)]
  simp [hpx, hcount]

/-- Witness of C1: the concrete scenario of the specification at 4 output channels. -/
theorem C1_witness :
    pelx_to_png_f true scenario_file 2 overworld_palette 4 none
      = Except.ok (pelx_result_t.success,
          some [0xEA, 0x9E, 0x22, 0xFF, 0x11, 0x22, 0x33, 0x44]) :=
  C1_well_formed_stream_expands scenario_file overworld_palette 4 none
    [pelx_record.pale 0, pelx_record.true_color [0x11, 0x22, 0x33, 0x44]]
    (by decide) (by decide) (by decide) (by decide) (by decide) (by decide)

/-- C2. Whenever `pelx_to_png_f` returns `success`, the handle is non-NULL and the buffer
holds exactly `width * height * png_channels` bytes. -/
theorem C2_success_buffer_length (malloc_ok : Bool) (d : pelx_file_data_t) (n : Nat)
    (pal : List pelx_palette_entry_t) (c : Nat) (prior handle : Option (List Nat))
    (h : pelx_to_png_f malloc_ok d n pal c prior
      = Except.ok (pelx_result_t.success, handle)) :
    ∃ buf, handle = some buf ∧ buf.length = d.header.width * d.header.height * c := by
  unfold pelx_to_png_f at h
  split at h
  · cases h
  · simp only [] at h
    split at h
    · rename_i hne
      injection h with h
      injection h with h1 h2
      exact absurd h1 hne
    · split at h
      · cases h
      · split at h
        · cases h
        · rename_i r hl
          injection h with h
          injection h with h1 h2
          exact absurd h1 (loop_ret_ne_success _ _ _ _ _ _ _ _ _ _ _ hl)
        · rename_i s hl
          split at h
          · cases h
          · rename_i hlen
            injection h with h
            injection h with h1 h2
            refine ⟨s.out, h2.symm, ?_⟩
            simpa [to_png_state.out_pos] using hlen

/-- Witness of C2: the concrete scenario succeeds with a buffer of 2 * 1 * 4 bytes. -/
theorem C2_witness :
    ∃ buf, some [0xEA, 0x9E, 0x22, 0xFF, 0x11, 0x22, 0x33, 0x44] = some buf ∧
      buf.length = 2 * 1 * 4 :=
  C2_success_buffer_length true scenario_file 2 overworld_palette 4 none
    (some [0xEA, 0x9E, 0x22, 0xFF, 0x11, 0x22, 0x33, 0x44]) (by decide)

/-- C3, refuted as stated: a one-pixel container whose body is one void record followed by
one further byte is accepted, the extra byte being ignored, where the claim demands
`invalid_data_format`. -/
theorem C3_counterexample :
    padded_file.body.data = stream_of [pelx_record.void] ++ [0x00] ∧
    padded_file.body.size = padded_file.body.data.length ∧
    [pelx_record.void].length = padded_file.header.width * padded_file.header.height ∧
    pelx_to_png_f true padded_file 2 overworld_palette 3 none
      = Except.ok (pelx_result_t.success, some [0x00, 0x00, 0x00]) ∧
    pelx_to_png_f true padded_file 2 overworld_palette 3 none
      ≠ Except.ok (pelx_result_t.invalid_data_format, none) := by
  decide

/-- C3, amended: a body that consists of `width * height` well-formed records followed by
at least one further byte is expanded successfully; the buffer is the in-order
concatenation of the pixels of those records and the further bytes are not examined. -/
theorem C3_padded_stream_accepted (d : pelx_file_data_t)
    (pal : List pelx_palette_entry_t) (c : Nat) (prior : Option (List Nat))
    (recs : List pelx_record) (extra : List Nat)
    (hv : (pelx_sanitize_header_f (some d.header)).1 = pelx_result_t.success)
    (hc : c = 3 ∨ c = 4)
    (hsize : d.body.size = d.body.data.length)
    (hdata : d.body.data = stream_of recs ++ extra)
    (_hextra : extra ≠ [])
    (hcount : recs.length = d.header.width * d.header.height)
    (hwf : ∀ r ∈ recs, r.well_formed d.header.true_channel_count pal.length) :
    pelx_to_png_f true d pal.length pal c prior
      = Except.ok (pelx_result_t.success,
          some (pixels_of d.header.true_channel_count d.header.palette_channel_count
            pal c recs)) := by
  have htc := ((sanitize_success_iff d.header).1 hv).2.2.2.1
  have hloop := loop_after_records d pal.length pal c recs extra hv hc
    (expandable_of_well_formed hwf)
    (by omega) hdata hsize
  have hpx := pixels_of_length d.header.true_channel_count d.header.palette_channel_count
    pal.length pal c hc htc recs (expandable_of_well_formed hwf)
  have hexit := loop_exit d.body.data d.body.size (d.header.width * d.header.height * c)
    d.header.true_channel_count d.header.palette_channel_count pal.length pal c
    (d.body.size - recs.length)
    ⟨(stream_of recs).length,
      pixels_of d.header.true_channel_count d.header.palette_channel_count pal c recs⟩
    (by simp only [hpx, hcount]; omega)
  rw [to_png_of_loop_next d pal.length pal c prior _ hv hc (hloop.trans hexit)]
  simp [hpx, hcount]

/-- Witness of the amended C3: the scenario body followed by the two bytes 07 and 01. -/
theorem C3_witness :
    pelx_to_png_f true
        { header := mk_header 2 1 4 4 2,
          body := { size := 9, data := [0x02, 0x00, 0x01, 0x11, 0x22, 0x33, 0x44, 0x07, 0x01] } }
        2 overworld_palette 4 none
      = Except.ok (pelx_result_t.success,
          some [0xEA, 0x9E, 0x22, 0xFF, 0x11, 0x22, 0x33, 0x44]) :=
  C3_padded_stream_accepted
    { header := mk_header 2 1 4 4 2,
      body := { size := 9, data := [0x02, 0x00, 0x01, 0x11, 0x22, 0x33, 0x44, 0x07, 0x01] } }
    overworld_palette 4 none
    [pelx_record.pale 0, pelx_record.true_color [0x11, 0x22, 0x33, 0x44]] [0x07, 0x01]
    (by decide) (by decide) (by decide) (by decide) (by decide) (by decide) (by decide)

/-- C4. A body that is exactly `k` well-formed records with `k < width * height` is
rejected with `invalid_data_format`, and the buffer handle is NULL afterwards. -/
theorem C4_short_stream_rejected (d : pelx_file_data_t)
    (pal : List pelx_palette_entry_t) (c : Nat) (prior : Option (List Nat))
    (recs : List pelx_record)
    (hv : (pelx_sanitize_header_f (some d.header)).1 = pelx_result_t.success)
    (hc : c = 3 ∨ c = 4)
    (hsize : d.body.size = d.body.data.length)
    (hdata : d.body.data = stream_of recs)
    (hcount : recs.length < d.header.width * d.header.height)
    (hwf : ∀ r ∈ recs, r.well_formed d.header.true_channel_count pal.length) :
    pelx_to_png_f true d pal.length pal c prior
      = Except.ok (pelx_result_t.invalid_data_format, none) := by
  have htc := ((sanitize_success_iff d.header).1 hv).2.2.2.1
  have hloop := loop_after_records d pal.length pal c recs [] hv hc
    (expandable_of_well_formed hwf)
    (by omega) (by simpa using hdata) hsize
  have hpx := pixels_of_length d.header.true_channel_count d.header.palette_channel_count
    pal.length pal c hc htc recs (expandable_of_well_formed hwf)
  have hsz : d.body.size = (stream_of recs).length := by rw [hsize, hdata]
  have hexit := loop_exit d.body.data d.body.size (d.header.width * d.header.height * c)
    d.header.true_channel_count d.header.palette_channel_count pal.length pal c
    (d.body.size - recs.length)
    ⟨(stream_of recs).length,
      pixels_of d.header.true_channel_count d.header.palette_channel_count pal c recs⟩
    (by simp only [hsz]; omega)
  rw [to_png_of_loop_next d pal.length pal c prior _ hv hc (hloop.trans hexit)]
  have hcpos : 0 < c := by omega
  have hlt : recs.length * c < d.header.width * d.header.height * c :=
    Nat.mul_lt_mul_of_pos_right hcount hcpos
  have hne : recs.length * c ≠ d.header.width * d.header.height * c := by omega
  simp [hpx, hne]

/-- Witness of C4: one void record where two pixels are expected. -/
theorem C4_witness :
    pelx_to_png_f true short_file 2 overworld_palette 3 none
      = Except.ok (pelx_result_t.invalid_data_format, none) :=
  C4_short_stream_rejected short_file overworld_palette 3 none [pelx_record.void]
    (by decide) (by decide) (by decide) (by decide) (by decide) (by decide)

/-- C5, refuted as stated: in a one-pixel container the byte 07 stands where a tag is
expected, right after `width * height` well-formed records, and the call succeeds. -/
theorem C5_counterexample :
    late_bad_tag_file.body.data = stream_of [pelx_record.void] ++ [0x07] ∧
    late_bad_tag_file.body.size = late_bad_tag_file.body.data.length ∧
    pelx_to_png_f true late_bad_tag_file 2 overworld_palette 3 none
      = Except.ok (pelx_result_t.success, some [0x00, 0x00, 0x00]) ∧
    pelx_to_png_f true late_bad_tag_file 2 overworld_palette 3 none
      ≠ Except.ok (pelx_result_t.invalid_data_format, none) := by
  decide

/-- C5, amended: a byte other than 00, 01 and 02 that stands immediately after fewer than
`width * height` well-formed records makes the call fail with `invalid_data_format`,
and the buffer handle is NULL afterwards. -/
theorem C5_bad_tag_rejected (d : pelx_file_data_t)
    (pal : List pelx_palette_entry_t) (c : Nat) (prior : Option (List Nat))
    (recs : List pelx_record) (t : Nat) (rest : List Nat)
    (hv : (pelx_sanitize_header_f (some d.header)).1 = pelx_result_t.success)
    (hc : c = 3 ∨ c = 4)
    (hsize : d.body.size = d.body.data.length)
    (hdata : d.body.data = stream_of recs ++ t :: rest)
    (ht : t ≠ 0x00 ∧ t ≠ 0x01 ∧ t ≠ 0x02)
    (hcount : recs.length < d.header.width * d.header.height)
    (hwf : ∀ r ∈ recs, r.well_formed d.header.true_channel_count pal.length) :
    pelx_to_png_f true d pal.length pal c prior
      = Except.ok (pelx_result_t.invalid_data_format, none) := by
  refine to_png_records_then_ret d pal.length pal c prior recs (t :: rest) _ hv hc
    (expandable_of_well_formed hwf) hcount hdata hsize (by simp) ?_
  rw [hdata]
  exact body_bad_tag (stream_of recs) rest t _ _ _ _ _ _ _ _ ht.1 ht.2.1 ht.2.2

/-- Witness of the amended C5: the byte 07 after one of two expected records. -/
theorem C5_witness :
    pelx_to_png_f true bad_tag_file 2 overworld_palette 3 none
      = Except.ok (pelx_result_t.invalid_data_format, none) :=
  C5_bad_tag_rejected bad_tag_file overworld_palette 3 none [pelx_record.void] 0x07 []
    (by decide) (by decide) (by decide) (by decide) (by decide) (by decide) (by decide)

/-- C6, refuted as stated: a palette reference to entry 5 of a table of 2 entries fails
with `io_error`, which is the very kind returned for a stream truncated after a palette
tag; no kind of `pelx_result_t` is reserved for an index out of range. -/
theorem C6_counterexample :
    bad_index_file.body.data = stream_of [] ++ [0x02, 0x05] ∧
    overworld_palette.length ≤ 5 ∧
    pelx_to_png_f true bad_index_file 2 overworld_palette 4 none
      = Except.ok (pelx_result_t.io_error, none) ∧
    pelx_to_png_f true truncated_file 2 overworld_palette 4 none
      = Except.ok (pelx_result_t.io_error, none) := by
  decide

/-- C6, amended: a palette reference whose index is not below the supplied palette
length, standing after fewer than `width * height` well-formed records, makes the call
fail with `io_error`, and the buffer handle is NULL afterwards. -/
theorem C6_palette_index_out_of_range (d : pelx_file_data_t)
    (pal : List pelx_palette_entry_t) (c : Nat) (prior : Option (List Nat))
    (recs : List pelx_record) (i : Nat) (rest : List Nat)
    (hv : (pelx_sanitize_header_f (some d.header)).1 = pelx_result_t.success)
    (hc : c = 3 ∨ c = 4)
    (hsize : d.body.size = d.body.data.length)
    (hdata : d.body.data = stream_of recs ++ 0x02 :: i :: rest)
    (hi : pal.length ≤ i)
    (hcount : recs.length < d.header.width * d.header.height)
    (hwf : ∀ r ∈ recs, r.well_formed d.header.true_channel_count pal.length) :
    pelx_to_png_f true d pal.length pal c prior
      = Except.ok (pelx_result_t.io_error, none) := by
  refine to_png_records_then_ret d pal.length pal c prior recs (0x02 :: i :: rest) _ hv hc
    (expandable_of_well_formed hwf) hcount hdata hsize (by simp) ?_
  rw [hdata]
  refine body_pale_out_of_range (stream_of recs) rest i _ _ _ _ _ _ _ _ hi ?_
  rw [hsize, hdata]
  simp

/-- Witness of the amended C6: index 2 into a table of 2 entries, after one of two
expected records. -/
theorem C6_witness :
    pelx_to_png_f true
        { header := mk_header 2 1 4 4 2, body := { size := 3, data := [0x00, 0x02, 0x02] } }
        2 overworld_palette 4 (some [0x01])
      = Except.ok (pelx_result_t.io_error, none) :=
  C6_palette_index_out_of_range
    { header := mk_header 2 1 4 4 2, body := { size := 3, data := [0x00, 0x02, 0x02] } }
    overworld_palette 4 (some [0x01]) [pelx_record.void] 2 []
    (by decide) (by decide) (by decide) (by decide) (by decide) (by decide) (by decide)

/-- C7. On a container whose body holds at least `body.size` bytes, the call with 3
output channels returns the same kind as the call with 4 output channels, and when both
succeed the 3-channel buffer is the 4-channel buffer with every fourth byte removed. -/
theorem C7_three_channels_drop_alpha (malloc_ok : Bool) (d : pelx_file_data_t) (n : Nat)
    (pal : List pelx_palette_entry_t) (prior : Option (List Nat))
    (hbody : d.body.size ≤ d.body.data.length) :
    Except.map Prod.fst (pelx_to_png_f malloc_ok d n pal 3 prior)
      = Except.map Prod.fst (pelx_to_png_f malloc_ok d n pal 4 prior) ∧
    ∀ b3 b4 : List Nat,
      pelx_to_png_f malloc_ok d n pal 3 prior = Except.ok (pelx_result_t.success, some b3) →
      pelx_to_png_f malloc_ok d n pal 4 prior = Except.ok (pelx_result_t.success, some b4) →
      b3 = drop_alpha b4 := by
  by_cases hv : (pelx_sanitize_header_f (some d.header)).1 = pelx_result_t.success
  · cases malloc_ok with
    | false =>
      simp [pelx_to_png_f, hv]
    | true =>
      have htc := ((sanitize_success_iff d.header).1 hv).2.2.2.1
      have hl := loop_channels d.body.data d.body.size (d.header.width * d.header.height)
        d.header.true_channel_count d.header.palette_channel_count n pal htc hbody
        d.body.size 0 ⟨0, []⟩ ⟨0, []⟩ ⟨rfl, rfl, rfl, rfl⟩
      cases l3 : to_png_loop d.body.data d.body.size (d.header.width * d.header.height * 3)
          d.header.true_channel_count d.header.palette_channel_count n pal 3 d.body.size
          ⟨0, []⟩ with
      | error e3 =>
        cases l4 : to_png_loop d.body.data d.body.size (d.header.width * d.header.height * 4)
            d.header.true_channel_count d.header.palette_channel_count n pal 4 d.body.size
            ⟨0, []⟩ with
        | error e4 =>
          rw [l3, l4] at hl
          have he : e3 = e4 := hl
          subst he
          rw [to_png_of_loop_error d n pal 3 prior e3 hv (Or.inl rfl) l3,
            to_png_of_loop_error d n pal 4 prior e3 hv (Or.inr rfl) l4]
          simp
        | ok v4 =>
          rw [l3, l4] at hl
          cases v4 <;> exact absurd hl (by simp [flow_rel])
      | ok v3 =>
        cases l4 : to_png_loop d.body.data d.body.size (d.header.width * d.header.height * 4)
            d.header.true_channel_count d.header.palette_channel_count n pal 4 d.body.size
            ⟨0, []⟩ with
        | error e4 =>
          rw [l3, l4] at hl
          cases v3 <;> exact absurd hl (by simp [flow_rel])
        | ok v4 =>
          rw [l3, l4] at hl
          cases v3 with
          | next s3 =>
            cases v4 with
            | next s4 =>
              obtain ⟨k, hp, h3, h4, hd⟩ := hl
              rw [to_png_of_loop_next d n pal 3 prior s3 hv (Or.inl rfl) l3,
                to_png_of_loop_next d n pal 4 prior s4 hv (Or.inr rfl) l4]
              by_cases hk : k = d.header.width * d.header.height
              · have e3 : ¬ s3.out.length ≠ d.header.width * d.header.height * 3 := by omega
                have e4 : ¬ s4.out.length ≠ d.header.width * d.header.height * 4 := by omega
                rw [if_neg e3, if_neg e4]
                refine ⟨rfl, ?_⟩
                intro b3 b4 hb3 hb4
                injection hb3 with hb3
                injection hb3 with _ hb3
                injection hb3 with hb3
                injection hb4 with hb4
                injection hb4 with _ hb4
                injection hb4 with hb4
                rw [← hb3, ← hb4]
                exact hd
              · have e3 : s3.out.length ≠ d.header.width * d.header.height * 3 := by omega
                have e4 : s4.out.length ≠ d.header.width * d.header.height * 4 := by omega
                rw [if_pos e3, if_pos e4]
                refine ⟨rfl, ?_⟩
                intro b3 b4 hb3
                cases hb3
            | ret r4 => exact absurd hl (by simp [flow_rel])
          | ret r3 =>
            cases v4 with
            | next s4 => exact absurd hl (by simp [flow_rel])
            | ret r4 =>
              have hr : r3 = r4 := hl
              subst hr
              rw [to_png_of_loop_ret d n pal 3 prior r3 hv (Or.inl rfl) l3,
                to_png_of_loop_ret d n pal 4 prior r3 hv (Or.inr rfl) l4]
              refine ⟨rfl, ?_⟩
              intro b3 b4 hb3
              cases hb3
  · refine ⟨by simp [pelx_to_png_f, hv], ?_⟩
    intro b3 b4 hb3
    simp [pelx_to_png_f, hv] at hb3

/-- Witness of C7: the concrete scenario of the specification at 3 output channels. -/
theorem C7_witness :
    pelx_to_png_f true scenario_file 2 overworld_palette 3 none
      = Except.ok (pelx_result_t.success, some [0xEA, 0x9E, 0x22, 0x11, 0x22, 0x33]) ∧
    Except.map Prod.fst (pelx_to_png_f true scenario_file 2 overworld_palette 3 none)
      = Except.map Prod.fst (pelx_to_png_f true scenario_file 2 overworld_palette 4 none) ∧
    [0xEA, 0x9E, 0x22, 0x11, 0x22, 0x33]
      = drop_alpha [0xEA, 0x9E, 0x22, 0xFF, 0x11, 0x22, 0x33, 0x44] :=
  ⟨by decide,
   (C7_three_channels_drop_alpha true scenario_file 2 overworld_palette none (by decide)).1,
   (C7_three_channels_drop_alpha true scenario_file 2 overworld_palette none (by decide)).2
     [0xEA, 0x9E, 0x22, 0x11, 0x22, 0x33] [0xEA, 0x9E, 0x22, 0xFF, 0x11, 0x22, 0x33, 0x44]
     (by decide) (by decide)⟩

/-- C8, refuted as stated: for a 256 by 256 container of 65536 void tags the recorded
`body.size` is 65536 cast to 16 bits, that is 0, so the loop is not entered and the call
fails with `invalid_data_format`. -/
theorem C8_counterexample :
    (pelx_sanitize_header_f (some large_void_file.header)).1 = pelx_result_t.success ∧
    large_void_file.body.data
      = List.replicate (large_void_file.header.width * large_void_file.header.height) 0x00 ∧
    large_void_file.body.size
      = (large_void_file.header.width * large_void_file.header.height) % 65536 ∧
    pelx_to_png_f true large_void_file 2 overworld_palette 3 none
      = Except.ok (pelx_result_t.invalid_data_format, none) := by
  refine ⟨by decide, rfl, by decide, by decide⟩

/-- C8, amended: when `width * height` is at most 65535, a body of `width * height` void
tags, with `body.size` the body length cast to 16 bits, is expanded successfully to
`width * height * png_channels` zero bytes, whatever the palette table. -/
theorem C8_void_body_expands (d : pelx_file_data_t) (n : Nat)
    (pal : List pelx_palette_entry_t) (c : Nat) (prior : Option (List Nat))
    (hv : (pelx_sanitize_header_f (some d.header)).1 = pelx_result_t.success)
    (hc : c = 3 ∨ c = 4)
    (hsmall : d.header.width * d.header.height ≤ 65535)
    (hdata : d.body.data = List.replicate (d.header.width * d.header.height) 0x00)
    (hsize : d.body.size = d.body.data.length % 65536) :
    pelx_to_png_f true d n pal c prior
      = Except.ok (pelx_result_t.success,
          some (List.replicate (d.header.width * d.header.height * c) 0x00)) := by
  have hlen : d.body.data.length = d.header.width * d.header.height := by
    rw [hdata, List.length_replicate]
  have hsz : d.body.size = d.body.data.length := by
    rw [hsize, hlen]
    exact Nat.mod_eq_of_lt (by omega)
  have hwf : ∀ r ∈ List.replicate (d.header.width * d.header.height) pelx_record.void,
      r.expandable d.header.true_channel_count n pal := by
    intro r hr
    rw [List.eq_of_mem_replicate hr]
    trivial
  have hloop := loop_after_records d n pal c
    (List.replicate (d.header.width * d.header.height) pelx_record.void) [] hv hc hwf
    (by simp) (by simpa [stream_of_void] using hdata) hsz
  have hexit := loop_exit d.body.data d.body.size (d.header.width * d.header.height * c)
    d.header.true_channel_count d.header.palette_channel_count n pal c
    (d.body.size - (List.replicate (d.header.width * d.header.height) pelx_record.void).length)
    ⟨(stream_of (List.replicate (d.header.width * d.header.height) pelx_record.void)).length,
      pixels_of d.header.true_channel_count d.header.palette_channel_count pal c
        (List.replicate (d.header.width * d.header.height) pelx_record.void)⟩
    (by simp [pixels_of_void])
  rw [to_png_of_loop_next d n pal c prior _ hv hc (hloop.trans hexit)]
  simp [pixels_of_void]

/-- Witness of the amended C8: a 2 by 2 container of four void tags, with an empty
palette table, at 3 output channels. -/
theorem C8_witness :
    pelx_to_png_f true
        { header := mk_header 2 2 3 4 1,
          body := { size := 4, data := [0x00, 0x00, 0x00, 0x00] } }
        0 [] 3 none
      = Except.ok (pelx_result_t.success, some (List.replicate (2 * 2 * 3) 0x00)) :=
  C8_void_body_expands
    { header := mk_header 2 2 3 4 1, body := { size := 4, data := [0x00, 0x00, 0x00, 0x00] } }
    0 [] 3 none (by decide) (by decide) (by decide) (by decide) (by decide)

/-! ## Claims about pelx_sanitize_header_f -/

/-- C9. For a non-NULL header `pelx_sanitize_header_f` returns the kind of the first
violated invariant in the order magic, size, true channels, palette channels, palette
count; it returns `success` exactly when all five invariants hold; and the header is
left unchanged. -/
theorem C9_sanitize_header_first_violation (h : pelx_header_t) :
    (pelx_sanitize_header_f (some h)).1 = first_violation h ∧
    ((pelx_sanitize_header_f (some h)).1 = pelx_result_t.success ↔ header_invariants h) ∧
    (pelx_sanitize_header_f (some h)).2 = some h := by
  have ht : h.true_channel_count = 3 ∨ h.true_channel_count = 4 ∨
      (h.true_channel_count ≠ 3 ∧ h.true_channel_count ≠ 4) := by omega
  have hp : h.palette_channel_count = 3 ∨ h.palette_channel_count = 4 ∨
      (h.palette_channel_count ≠ 3 ∧ h.palette_channel_count ≠ 4) := by omega
  refine ⟨?_, ?_, ?_⟩
  · unfold pelx_sanitize_header_f first_violation
    rw [magic_bytes]
    by_cases hm : h.magic = PELX_magic <;>
    by_cases hw : h.width = 0 <;>
    by_cases hh : h.height = 0 <;>
    by_cases hc : h.palette_count = 0 <;>
    rcases ht with ht | ht | ⟨ht1, ht2⟩ <;>
    rcases hp with hp | hp | ⟨hp1, hp2⟩ <;>
    simp [*]
  · rw [sanitize_success_iff, header_invariants, magic_bytes]
    simp only [Nat.pos_iff_ne_zero, ne_eq]
    tauto
  · unfold pelx_sanitize_header_f
    simp only []
    repeat' split
    all_goals rfl

/-- C10, refuted as stated: a header of width 0 whose magic bytes are wrong is reported
as `header_mismatched_magic_number`, not as `header_invalid_size`. -/
theorem C10_counterexample :
    zero_width_bad_magic_header.width = 0 ∧
    (pelx_sanitize_header_f (some zero_width_bad_magic_header)).1
      = pelx_result_t.header_mismatched_magic_number ∧
    (pelx_sanitize_header_f (some zero_width_bad_magic_header)).1
      ≠ pelx_result_t.header_invalid_size := by
  decide

/-- C10, amended: for every header whose magic bytes are 'P' 'E' 'L' 'X' 0 and whose
width is 0, `pelx_sanitize_header_f` returns `header_invalid_size`, whatever the height,
the channel counts, the palette count and the remaining fields hold. -/
theorem C10_zero_width_invalid_size (h : pelx_header_t)
    (hmagic : h.magic = ['P'.toNat, 'E'.toNat, 'L'.toNat, 'X'.toNat, 0])
    (hwidth : h.width = 0) :
    (pelx_sanitize_header_f (some h)).1 = pelx_result_t.header_invalid_size := by
  rw [magic_bytes] at hmagic
  simp [pelx_sanitize_header_f, hmagic, hwidth]

/-- Witness of the amended C10: right magic bytes, width 0, all other fields invalid. -/
theorem C10_witness :
    (pelx_sanitize_header_f (some zero_width_header)).1 = pelx_result_t.header_invalid_size :=
  C10_zero_width_invalid_size zero_width_header (by decide) (by decide)

/-! ## Claims about the container codec -/

/-- C11, refuted as stated: a file of 26 header bytes and 65536 body bytes is accepted by
`pelx_decode_pelx_f` with a valid header, the decoded `body.size` is 0, and
`pelx_encode_pelx_f` writes back the 26 header bytes only. -/
theorem C11_counterexample :
    pelx_decode_pelx_f (some big_file) true true none
      = (pelx_result_t.success, some big_container) ∧
    (pelx_sanitize_header_f (some big_container.header)).1 = pelx_result_t.success ∧
    pelx_encode_pelx_f true big_container
      = Except.ok (pelx_result_t.success, some (header_bytes big_container.header)) ∧
    (header_bytes big_container.header).length = 26 ∧
    big_file.length = 26 + 65536 := by
  refine ⟨?_, by decide, ?_, by decide, ?_⟩
  · have h := decode_header_bytes (mk_header 1 1 4 4 2) (List.replicate 65536 0x00) none
      (by decide) rfl (by rw [List.length_replicate]; decide)
    rw [List.length_replicate] at h
    exact h
  · have h := encode_eq big_container (by decide) (by decide)
      (by show 65536 % 2 ^ 16 ≤ _; exact Nat.zero_le _)
    rw [h]
    have e : big_container.body.data.take big_container.body.size = [] := List.take_zero _
    rw [e, List.append_nil]
  · show (header_bytes (mk_header 1 1 4 4 2) ++ List.replicate 65536 0x00).length = _
    rw [List.length_append, List.length_replicate]
    rfl

/-- C11, amended: when a file of bytes, shorter than 4 GiB, is accepted by
`pelx_decode_pelx_f` and holds fewer than 65536 bytes from offset `header_size` on,
`pelx_encode_pelx_f` writes for the decoded container the first 26 bytes of the file
followed by the bytes the file holds from offset `header_size` to its end. -/
theorem C11_decode_then_encode (f : List Nat) (prior : Option pelx_file_data_t)
    (c : pelx_file_data_t)
    (hb : ∀ b ∈ f, b < 2 ^ 8) (hlen : f.length < 2 ^ 32)
    (hdec : pelx_decode_pelx_f (some f) true true prior = (pelx_result_t.success, some c))
    (_hv : (pelx_sanitize_header_f (some c.header)).1 = pelx_result_t.success)
    (hsmall : f.length - c.header.header_size < 2 ^ 16) :
    pelx_encode_pelx_f true c
      = Except.ok (pelx_result_t.success,
          some (f.take 26 ++ f.drop c.header.header_size)) := by
  have hb26 : ∀ i, i < 26 → f.getD i 0 < 2 ^ 8 := fun i _ => getD_lt_of_bytes f hb i
  rw [decode_eq f prior hlen hb26] at hdec
  split_ifs at hdec with hc
  · injection hdec with _ hdec
    injection hdec with hdec
    subst hdec
    simp only [] at hsmall
    have hm : (header_at f).magic.length = 5 := by
      simp only [header_at, List.length_take]
      omega
    have hr : (header_at f).reserved.length = 5 := by
      simp only [header_at, List.length_take, List.length_drop]
      omega
    have hsz : (f.length - (header_at f).header_size) % 2 ^ 16
        = f.length - (header_at f).header_size := Nat.mod_eq_of_lt hsmall
    have hs : (header_at f).header_size = be32_at f 5 := rfl
    rw [encode_eq _ hm hr (by simp only [List.length_drop]; rw [← hs, hsz])]
    simp only []
    have ht : List.take (f.length - (header_at f).header_size)
        (List.drop (header_at f).header_size f)
          = List.drop (header_at f).header_size f :=
      List.take_of_length_le (by rw [List.length_drop])
    rw [header_bytes_header_at f hc.1 hb26, ← hs, hsz, ht]
  · cases hdec

/-- Witness of the amended C11: the 33-byte file of the concrete scenario. -/
theorem C11_witness :
    pelx_encode_pelx_f true scenario_file
      = Except.ok (pelx_result_t.success,
          some (scenario_bytes.take 26 ++ scenario_bytes.drop 26)) :=
  C11_decode_then_encode scenario_bytes none scenario_file (by decide) (by decide)
    (by decide) (by decide) (by decide)

/-- C12. For a container whose header fields lie in the ranges of their C types, whose
`header_size` is 26 and whose `body.size` equals the length of its body,
`pelx_encode_pelx_f` writes a file from which `pelx_decode_pelx_f` returns, with
`success`, a container with the same header, the same `body.size` and the same body
bytes. -/
theorem C12_encode_then_decode (c : pelx_file_data_t) (prior : Option pelx_file_data_t)
    (hr : c.header.in_range) (hs : c.header.header_size = 26)
    (hsize : c.body.size = c.body.data.length) (h16 : c.body.size < 2 ^ 16) :
    pelx_encode_pelx_f true c
      = Except.ok (pelx_result_t.success, some (header_bytes c.header ++ c.body.data)) ∧
    pelx_decode_pelx_f (some (header_bytes c.header ++ c.body.data)) true true prior
      = (pelx_result_t.success, some c) := by
  constructor
  · rw [encode_eq c hr.1 hr.2.2.2.2.2.2.2.2.2.1 (by omega), hsize, List.take_length]
  · rw [decode_header_bytes c.header c.body.data prior hr hs (by omega), ← hsize,
      Nat.mod_eq_of_lt h16]

/-- Witness of C12: the container of the concrete scenario, as the example program
builds its own. -/
theorem C12_witness :
    pelx_encode_pelx_f true scenario_file
      = Except.ok (pelx_result_t.success,
          some (header_bytes scenario_file.header ++ scenario_file.body.data)) ∧
    pelx_decode_pelx_f (some (header_bytes scenario_file.header ++ scenario_file.body.data))
        true true none
      = (pelx_result_t.success, some scenario_file) :=
  C12_encode_then_decode scenario_file none (by decide) (by decide) (by decide) (by decide)

/-- C13. For a file of bytes shorter than 4 GiB, with both allocations succeeding,
`pelx_decode_pelx_f` returns `success` exactly when the file has at least 26 bytes and
the big-endian 32-bit value at offset 5 is at most the length of the file.  Otherwise it
returns `invalid_data_format` and leaves the handle as it was.  On success the header
fields are the values at the offsets 0, 5, 9, 13, 15, 17, 18, 19 and 21, the body
bytes are the file from offset `header_size` to its end, and `body.size` is their count
cast to 16 bits; no header invariant takes part. -/
theorem C13_decode_accepts (f : List Nat) (prior : Option pelx_file_data_t)
    (hb : ∀ b ∈ f, b < 2 ^ 8) (hlen : f.length < 2 ^ 32) :
    ((pelx_decode_pelx_f (some f) true true prior).1 = pelx_result_t.success ↔
      26 ≤ f.length ∧ be32_at f 5 ≤ f.length) ∧
    (¬ (26 ≤ f.length ∧ be32_at f 5 ≤ f.length) →
      pelx_decode_pelx_f (some f) true true prior
        = (pelx_result_t.invalid_data_format, prior)) ∧
    (26 ≤ f.length ∧ be32_at f 5 ≤ f.length →
      pelx_decode_pelx_f (some f) true true prior
        = (pelx_result_t.success,
            some { header := header_at f,
                   body := { size := (f.length - be32_at f 5) % 2 ^ 16,
                             data := f.drop (be32_at f 5) } })) := by
  have hb26 : ∀ i, i < 26 → f.getD i 0 < 2 ^ 8 := fun i _ => getD_lt_of_bytes f hb i
  rw [decode_eq f prior hlen hb26]
  by_cases hc : 26 ≤ f.length ∧ be32_at f 5 ≤ f.length
  · simp only [hc, and_self, if_true, not_true_eq_false, false_implies, true_implies,
      true_and, and_true]
  · simp only [hc, if_false, not_false_eq_true, true_implies, false_implies, and_true,
      iff_false]
    decide

/-- Witness of C13: the 33-byte file of the concrete scenario is accepted. -/
theorem C13_witness :
    pelx_decode_pelx_f (some scenario_bytes) true true none
      = (pelx_result_t.success,
          some { header := header_at scenario_bytes,
                 body := { size := (scenario_bytes.length - be32_at scenario_bytes 5) % 2 ^ 16,
                           data := scenario_bytes.drop (be32_at scenario_bytes 5) } }) :=
  (C13_decode_accepts scenario_bytes none (by decide) (by decide)).2.2 (by decide)

/-- C14. Whether or not its header is valid, the file that `pelx_encode_pelx_f` writes
for a container is the 26 header bytes of the layout followed by the first `body.size`
bytes of the body; it has `26 + body.size` bytes and the body starts at offset 26
whatever `header_size` holds. -/
theorem C14_encode_layout (c : pelx_file_data_t)
    (hm : c.header.magic.length = 5) (hr : c.header.reserved.length = 5)
    (hs : c.body.size ≤ c.body.data.length) :
    pelx_encode_pelx_f true c
      = Except.ok (pelx_result_t.success,
          some (header_bytes c.header ++ c.body.data.take c.body.size)) ∧
    (header_bytes c.header ++ c.body.data.take c.body.size).length = 26 + c.body.size ∧
    (header_bytes c.header ++ c.body.data.take c.body.size).drop 26
      = c.body.data.take c.body.size := by
  have hl := header_bytes_length c.header hm hr
  refine ⟨encode_eq c hm hr hs, ?_, ?_⟩
  · rw [List.length_append, hl, List.length_take, Nat.min_eq_left hs]
  · rw [← hl]
    exact List.drop_left _ _

/-- Witness of C14: a container with an invalid header, header size 0, and a body of
which the first 2 of 3 bytes count. -/
theorem C14_witness :
    pelx_encode_pelx_f true
        { header := zero_width_header, body := { size := 2, data := [0x07, 0x08, 0x09] } }
      = Except.ok (pelx_result_t.success,
          some [0x50, 0x45, 0x4C, 0x58, 0x00, 0, 0, 0, 0, 0, 0, 0, 0, 0, 0, 0, 0, 7, 9,
            0, 0, 1, 2, 3, 4, 5, 0x07, 0x08]) :=
  (C14_encode_layout
    { header := zero_width_header, body := { size := 2, data := [0x07, 0x08, 0x09] } }
    (by decide) (by decide) (by decide)).1

/-! ## Further claims about pelx_to_png_f -/

/-- C15. A requested channel count other than 3 and 4 is answered with
`invalid_png_channels` whatever the header and the body hold; otherwise a header that
`pelx_sanitize_header_f` rejects is answered with the very kind that function returns.
In both cases the handle keeps its value and the answer is the same for every body, so
no byte of the body is decoded. -/
theorem C15_early_returns (malloc_ok : Bool) (d : pelx_file_data_t) (n : Nat)
    (pal : List pelx_palette_entry_t) (c : Nat) (prior : Option (List Nat)) :
    (c ≠ 3 ∧ c ≠ 4 →
      ∀ body : pelx_body_t,
        pelx_to_png_f malloc_ok { d with body := body } n pal c prior
          = Except.ok (pelx_result_t.invalid_png_channels, prior)) ∧
    ((c = 3 ∨ c = 4) →
      (pelx_sanitize_header_f (some d.header)).1 ≠ pelx_result_t.success →
      ∀ body : pelx_body_t,
        pelx_to_png_f malloc_ok { d with body := body } n pal c prior
          = Except.ok ((pelx_sanitize_header_f (some d.header)).1, prior)) := by
  constructor
  · intro hc body
    simp [pelx_to_png_f, hc]
  · intro hc hv body
    have hc2 : ¬ (c ≠ 3 ∧ c ≠ 4) := by tauto
    unfold pelx_to_png_f
    simp only [hc2, if_false, hv, ne_eq, not_false_eq_true, if_true]

/-- Witness of C15: 5 channels with a header that is invalid as well, and 4 channels with
that header, on the body of the concrete scenario. -/
theorem C15_witness :
    pelx_to_png_f true { header := zero_width_header, body := scenario_file.body } 2
        overworld_palette 5 (some [0x01])
      = Except.ok (pelx_result_t.invalid_png_channels, some [0x01]) ∧
    pelx_to_png_f true { header := zero_width_header, body := scenario_file.body } 2
        overworld_palette 4 (some [0x01])
      = Except.ok (pelx_result_t.header_invalid_size, some [0x01]) :=
  ⟨(C15_early_returns true { header := zero_width_header, body := scenario_file.body } 2
      overworld_palette 5 (some [0x01])).1 (by decide) scenario_file.body,
   (C15_early_returns true { header := zero_width_header, body := scenario_file.body } 2
      overworld_palette 4 (some [0x01])).2 (by decide) (by decide) scenario_file.body⟩

/-- C16, refuted as stated: a call with 5 output channels fails with
`invalid_png_channels` and leaves the handle pointing to the buffer it pointed to before
the call. -/
theorem C16_counterexample :
    pelx_to_png_f true scenario_file 2 overworld_palette 5 (some [0x01, 0x02, 0x03])
      = Except.ok (pelx_result_t.invalid_png_channels, some [0x01, 0x02, 0x03]) ∧
    pelx_result_t.invalid_png_channels ≠ pelx_result_t.success ∧
    (some [0x01, 0x02, 0x03] : Option (List Nat)) ≠ none := by
  decide

/-- C16, amended: after a call that returns a non-success kind the handle is NULL when the
channel count is 3 or 4 and the header is valid, and it keeps the value it had before
the call otherwise. -/
theorem C16_failure_handle (malloc_ok : Bool) (d : pelx_file_data_t) (n : Nat)
    (pal : List pelx_palette_entry_t) (c : Nat) (prior handle : Option (List Nat))
    (r : pelx_result_t)
    (h : pelx_to_png_f malloc_ok d n pal c prior = Except.ok (r, handle))
    (hr : r ≠ pelx_result_t.success) :
    (((c = 3 ∨ c = 4) ∧ (pelx_sanitize_header_f (some d.header)).1 = pelx_result_t.success) →
      handle = none) ∧
    (¬ ((c = 3 ∨ c = 4) ∧ (pelx_sanitize_header_f (some d.header)).1 = pelx_result_t.success) →
      handle = prior) := by
  unfold pelx_to_png_f at h
  split at h
  · rename_i hc
    injection h with h
    injection h with h1 h2
    refine ⟨fun hh => ?_, fun _ => h2.symm⟩
    exact absurd hh.1 (by tauto)
  · rename_i hc
    simp only [] at h
    split at h
    · rename_i hv
      injection h with h
      injection h with h1 h2
      exact ⟨fun hh => absurd hh.2 hv, fun _ => h2.symm⟩
    · rename_i hv
      have hv2 : (pelx_sanitize_header_f (some d.header)).1 = pelx_result_t.success := by
        simpa using hv
      have hc2 : c = 3 ∨ c = 4 := by tauto
      have key : handle = none := by
        split at h
        · injection h with h
          injection h with h1 h2
          exact h2.symm
        · split at h
          · cases h
          · injection h with h
            injection h with h1 h2
            exact h2.symm
          · split at h
            · injection h with h
              injection h with h1 h2
              exact h2.symm
            · injection h with h
              injection h with h1 h2
              exact absurd h1.symm hr
      exact ⟨fun _ => key, fun hh => absurd ⟨hc2, hv2⟩ hh⟩

/-- Witness of the amended C16: a truncated stream clears the handle. -/
theorem C16_witness :
    pelx_to_png_f true truncated_file 2 overworld_palette 4 (some [0x01])
      = Except.ok (pelx_result_t.io_error, none) ∧
    (((4 = 3 ∨ 4 = 4) ∧
        (pelx_sanitize_header_f (some truncated_file.header)).1 = pelx_result_t.success) →
      (none : Option (List Nat)) = none) ∧
    (¬ ((4 = 3 ∨ 4 = 4) ∧
        (pelx_sanitize_header_f (some truncated_file.header)).1 = pelx_result_t.success) →
      (none : Option (List Nat)) = some [0x01]) :=
  ⟨by decide,
   C16_failure_handle true truncated_file 2 overworld_palette 4 (some [0x01]) none
     pelx_result_t.io_error (by decide) (by decide)⟩

/-- C17. After fewer than `width * height` well-formed records, a true-colour tag
followed by fewer than `true_channel_count` bytes, or a palette tag followed by no byte,
makes the call fail with `io_error`; no buffer is returned and the handle is NULL. -/
theorem C17_truncated_stream (d : pelx_file_data_t)
    (pal : List pelx_palette_entry_t) (c : Nat) (prior : Option (List Nat))
    (recs : List pelx_record) (tail : List Nat)
    (hv : (pelx_sanitize_header_f (some d.header)).1 = pelx_result_t.success)
    (hc : c = 3 ∨ c = 4)
    (hsize : d.body.size = d.body.data.length)
    (hdata : d.body.data = stream_of recs ++ tail)
    (htail : (∃ cut, tail = 0x01 :: cut ∧
                cut.length < d.header.true_channel_count) ∨
             tail = [0x02])
    (hcount : recs.length < d.header.width * d.header.height)
    (hwf : ∀ r ∈ recs, r.well_formed d.header.true_channel_count pal.length) :
    pelx_to_png_f true d pal.length pal c prior
      = Except.ok (pelx_result_t.io_error, none) := by
  have hne : tail ≠ [] := by
    rcases htail with ⟨p, rfl, _⟩ | rfl <;> simp
  refine to_png_records_then_ret d pal.length pal c prior recs tail _ hv hc
    (expandable_of_well_formed hwf) hcount hdata hsize hne ?_
  rw [hsize, hdata]
  rcases htail with ⟨p, rfl, hp⟩ | rfl
  · refine body_true_truncated (stream_of recs) p _ _ _ _ _ _ _ _ ?_
    simp only [List.length_append, List.length_cons]
    omega
  · refine body_pale_truncated (stream_of recs) [] _ _ _ _ _ _ _ _ ?_
    simp only [List.length_append, List.length_cons, List.length_nil]
    omega

/-- Witness of C17: after one void record, a true-colour tag with 3 of its 4 bytes. -/
theorem C17_witness :
    pelx_to_png_f true
        { header := mk_header 2 1 4 4 2,
          body := { size := 5, data := [0x00, 0x01, 0x11, 0x22, 0x33] } }
        2 overworld_palette 4 (some [0x01])
      = Except.ok (pelx_result_t.io_error, none) :=
  C17_truncated_stream
    { header := mk_header 2 1 4 4 2,
      body := { size := 5, data := [0x00, 0x01, 0x11, 0x22, 0x33] } }
    overworld_palette 4 (some [0x01]) [pelx_record.void] [0x01, 0x11, 0x22, 0x33]
    (by decide) (by decide) (by decide) (by decide)
    (Or.inl ⟨[0x11, 0x22, 0x33], rfl, by decide⟩) (by decide) (by decide)

/-- C18. Two containers that differ only in a non-zero `header.palette_count` give the
same result, fault or kind and buffer, for every palette table, supplied palette count
and channel count; and no call returns `mismatched_palettes`. -/
theorem C18_palette_count_not_checked (malloc_ok : Bool) (d : pelx_file_data_t)
    (count1 count2 n : Nat) (pal : List pelx_palette_entry_t) (c : Nat)
    (prior : Option (List Nat)) (h1 : count1 ≠ 0) (h2 : count2 ≠ 0) :
    pelx_to_png_f malloc_ok { d with header := { d.header with palette_count := count1 } }
        n pal c prior
      = pelx_to_png_f malloc_ok { d with header := { d.header with palette_count := count2 } }
          n pal c prior ∧
    ∀ handle : Option (List Nat),
      pelx_to_png_f malloc_ok d n pal c prior
        ≠ Except.ok (pelx_result_t.mismatched_palettes, handle) := by
  constructor
  · unfold pelx_to_png_f
    simp only [sanitize_palette_count d.header count1 count2 h1 h2]
  · intro handle h
    unfold pelx_to_png_f at h
    split at h
    · cases h
    · simp only [] at h
      split at h
      · injection h with h
        injection h with h1 h2
        exact sanitize_kind d.header h1
      · split at h
        · cases h
        · split at h
          · cases h
          · rename_i r hl
            injection h with h
            injection h with h1 h2
            subst h1
            rcases loop_ret_kind _ _ _ _ _ _ _ _ _ _ _ hl with hk | hk <;> cases hk
          · split at h <;> cases h

/-- Witness of C18: the concrete scenario with header palette counts 2 and 7, and a
supplied table of 2 entries. -/
theorem C18_witness :
    pelx_to_png_f true
        { scenario_file with header := { scenario_file.header with palette_count := 2 } }
        2 overworld_palette 4 none
      = pelx_to_png_f true
          { scenario_file with header := { scenario_file.header with palette_count := 7 } }
          2 overworld_palette 4 none ∧
    ∀ handle : Option (List Nat),
      pelx_to_png_f true scenario_file 2 overworld_palette 4 none
        ≠ Except.ok (pelx_result_t.mismatched_palettes, handle) :=
  C18_palette_count_not_checked true scenario_file 2 7 2 overworld_palette 4 none
    (by decide) (by decide)

/-- C19. When `pelx_decode_pelx_f` accepts a file of bytes, the file has at least 26
bytes, the decoded header is the one stored in the file, so that `header_size` is the
big-endian value at offset 5, and that value is at most the file length.  The body
bytes are the file from offset `header_size` to its end, file length minus
`header_size` of them, while `body.size` is that count modulo 65536; so `body.size`
equals the body length exactly when that length is below 65536, and is smaller
otherwise. -/
theorem C19_body_size_truncated (f : List Nat) (malloc_file_ok malloc_body_ok : Bool)
    (prior : Option pelx_file_data_t) (c : pelx_file_data_t)
    (hb : ∀ b ∈ f, b < 2 ^ 8)
    (hdec : pelx_decode_pelx_f (some f) malloc_file_ok malloc_body_ok prior
      = (pelx_result_t.success, some c)) :
    26 ≤ f.length ∧
    c.header = header_at f ∧
    c.header.header_size = be32_at f 5 ∧
    be32_at f 5 ≤ f.length ∧
    c.body.data = f.drop (be32_at f 5) ∧
    c.body.size = (f.length - be32_at f 5) % 65536 ∧
    c.body.data.length = f.length - be32_at f 5 ∧
    c.body.size = (f.length - c.header.header_size) % 65536 ∧
    c.body.data.length = f.length - c.header.header_size ∧
    (c.body.size = c.body.data.length ↔ c.body.data.length < 65536) ∧
    (65536 ≤ c.body.data.length → c.body.size < c.body.data.length) := by
  have hb26 : ∀ i, i < 26 → f.getD i 0 < 2 ^ 8 := fun i _ => getD_lt_of_bytes f hb i
  have key : 26 ≤ f.length ∧ be32_at f 5 ≤ f.length ∧
      c = { header := header_at f,
            body := { size := (f.length - be32_at f 5) % 2 ^ 16,
                      data := f.drop (be32_at f 5) } } := by
    unfold pelx_decode_pelx_f at hdec
    simp only [] at hdec
    split at hdec
    · cases hdec
    · by_cases h26 : 26 ≤ f.length
      · rw [decode_header_ok f h26 hb26] at hdec
        have hs : (header_at f).header_size = be32_at f 5 := rfl
        simp only [hs, fread] at hdec
        split at hdec
        · cases hdec
        · rename_i hle
          have hmod : f.length % 2 ^ 32 ≤ f.length := Nat.mod_le _ _
          have hle2 : be32_at f 5 ≤ f.length := by omega
          split at hdec
          · cases hdec
          · split at hdec
            · cases hdec
            · injection hdec with _ hdec
              injection hdec with hdec
              have ht : List.take (f.length - be32_at f 5) (List.drop (be32_at f 5) f)
                  = List.drop (be32_at f 5) f :=
                List.take_of_length_le (by rw [List.length_drop])
              rw [ht] at hdec
              exact ⟨h26, hle2, hdec.symm⟩
      · rw [decode_header_short f (by omega)] at hdec
        cases hdec
  obtain ⟨h26, hle, rfl⟩ := key
  have hlen : (List.drop (be32_at f 5) f).length = f.length - be32_at f 5 :=
    List.length_drop _ _
  have hlt : (f.length - be32_at f 5) % 65536 < 65536 := Nat.mod_lt _ (by decide)
  refine ⟨h26, rfl, rfl, hle, rfl, rfl, hlen, rfl, hlen, ?_, ?_⟩
  · show (f.length - be32_at f 5) % 65536 = (List.drop (be32_at f 5) f).length ↔
      (List.drop (be32_at f 5) f).length < 65536
    rw [hlen]
    constructor
    · intro h
      rw [← h]
      exact hlt
    · intro h
      exact Nat.mod_eq_of_lt h
  · show 65536 ≤ (List.drop (be32_at f 5) f).length →
      (f.length - be32_at f 5) % 65536 < (List.drop (be32_at f 5) f).length
    rw [hlen]
    intro h
    omega

/-- Witness of C19: the 33-byte file of the concrete scenario stores header size 26, so
its body is the last 7 bytes and `body.size` is 7. -/
theorem C19_witness :
    be32_at scenario_bytes 5 = 26 ∧
    scenario_file.body.size = 7 ∧
    (26 ≤ scenario_bytes.length ∧
      scenario_file.header = header_at scenario_bytes ∧
      scenario_file.header.header_size = be32_at scenario_bytes 5 ∧
      be32_at scenario_bytes 5 ≤ scenario_bytes.length ∧
      scenario_file.body.data = scenario_bytes.drop (be32_at scenario_bytes 5) ∧
      scenario_file.body.size = (scenario_bytes.length - be32_at scenario_bytes 5) % 65536 ∧
      scenario_file.body.data.length = scenario_bytes.length - be32_at scenario_bytes 5 ∧
      scenario_file.body.size
        = (scenario_bytes.length - scenario_file.header.header_size) % 65536 ∧
      scenario_file.body.data.length
        = scenario_bytes.length - scenario_file.header.header_size ∧
      (scenario_file.body.size = scenario_file.body.data.length ↔
        scenario_file.body.data.length < 65536) ∧
      (65536 ≤ scenario_file.body.data.length →
        scenario_file.body.size < scenario_file.body.data.length)) :=
  ⟨by decide, by decide,
   C19_body_size_truncated scenario_bytes true true none scenario_file (by decide)
     (by decide)⟩

/-- C20. A container with `width * height` above 65535 and a `body.size` that fits its
16 bits is never expanded successfully: every iteration consumes a byte, of which
there are at most 65535, and stores at most one pixel. -/
theorem C20_capacity_limit (malloc_ok : Bool) (d : pelx_file_data_t) (n : Nat)
    (pal : List pelx_palette_entry_t) (c : Nat) (prior handle : Option (List Nat))
    (hsize : d.body.size ≤ 65535)
    (hbig : 65535 < d.header.width * d.header.height) :
    pelx_to_png_f malloc_ok d n pal c prior
      ≠ Except.ok (pelx_result_t.success, handle) := by
  intro h
  unfold pelx_to_png_f at h
  split at h
  · cases h
  · rename_i hc
    have hc2 : c = 3 ∨ c = 4 := by tauto
    simp only [] at h
    split at h
    · rename_i hv
      injection h with h
      injection h with h1 h2
      exact hv h1
    · split at h
      · cases h
      · split at h
        · cases h
        · rename_i r hl
          injection h with h
          injection h with h1 h2
          exact loop_ret_ne_success _ _ _ _ _ _ _ _ _ _ _ hl h1
        · rename_i s hl
          split at h
          · cases h
          · rename_i hlen
            have hb := loop_out_bound _ _ _ _ _ _ _ _ hc2 _ _ _ hl
            simp only [to_png_state.out_pos, ne_eq, not_not, List.length_nil,
              Nat.zero_add] at hlen hb
            have h1 : d.body.size * c ≤ 65535 * c := Nat.mul_le_mul_right c hsize
            have h2 : 65535 * c < d.header.width * d.header.height * c :=
              Nat.mul_lt_mul_of_pos_right hbig (by omega)
            omega

/-- Witness of C20: the 256 by 256 container of void tags. -/
theorem C20_witness :
    pelx_to_png_f true large_void_file 2 overworld_palette 4 none
      ≠ Except.ok (pelx_result_t.success, some (List.replicate (256 * 256 * 4) 0x00)) :=
  C20_capacity_limit true large_void_file 2 overworld_palette 4 none
    (some (List.replicate (256 * 256 * 4) 0x00)) (by decide) (by decide)

/-! ## The cursor invariant of pelx_to_png_f -/

/-- C21. For a container with a valid header whose body buffer holds at least `body.size`
bytes, a palette table with at least `palette_count` entries and 3 or 4 output channels:
the call returns without fault within `body.size` iterations, and the cursors `s` with
which any iteration `k` of its loop starts satisfy the following.  The write cursor is
a multiple of the channel count and at most `width * height * c - c`, and the read
cursor is below `body.size`.  The iteration runs without fault, and does the same when
the body is cut to its first `body.size` bytes and the table to its first
`palette_count` entries, so every store falls inside the buffer, every body read inside
the first `body.size` bytes and every palette read below `palette_count`.  When the
iteration reaches its end, the read cursor has grown and the write cursor has advanced by
one pixel. -/
theorem C21_cursor_invariant (d : pelx_file_data_t) (n : Nat)
    (pal : List pelx_palette_entry_t) (c : Nat) (prior : Option (List Nat))
    (hv : (pelx_sanitize_header_f (some d.header)).1 = pelx_result_t.success)
    (hbody : d.body.size ≤ d.body.data.length) (hpal : n ≤ pal.length)
    (hc : c = 3 ∨ c = 4) :
    (∃ r handle, pelx_to_png_f true d n pal c prior = Except.ok (r, handle)) ∧
    to_png_iteration d.body.data d.body.size (d.header.width * d.header.height * c)
      d.header.true_channel_count d.header.palette_channel_count n pal c d.body.size
        = none ∧
    ∀ (k : Nat) (s : to_png_state),
      to_png_iteration d.body.data d.body.size (d.header.width * d.header.height * c)
        d.header.true_channel_count d.header.palette_channel_count n pal c k = some s →
      to_png_loop d.body.data d.body.size (d.header.width * d.header.height * c)
          d.header.true_channel_count d.header.palette_channel_count n pal c
          d.body.size ⟨0, []⟩
        = to_png_loop d.body.data d.body.size (d.header.width * d.header.height * c)
            d.header.true_channel_count d.header.palette_channel_count n pal c
            (d.body.size - k) s ∧
      k < d.body.size ∧
      (s.out_pos % c = 0 ∧ s.out_pos ≤ d.header.width * d.header.height * c - c ∧
        s.out_pos + c ≤ d.header.width * d.header.height * c ∧
        s.src_pos < d.body.size) ∧
      (∃ flow,
        to_png_body d.body.data d.body.size (d.header.width * d.header.height * c)
            d.header.true_channel_count d.header.palette_channel_count n pal c s
          = Except.ok flow ∧
        to_png_body (d.body.data.take d.body.size) d.body.size
            (d.header.width * d.header.height * c)
            d.header.true_channel_count d.header.palette_channel_count n (pal.take n) c s
          = Except.ok flow) ∧
      (∀ s' : to_png_state,
        to_png_body d.body.data d.body.size (d.header.width * d.header.height * c)
            d.header.true_channel_count d.header.palette_channel_count n pal c s
          = Except.ok (to_png_flow.next s') →
        s.src_pos < s'.src_pos ∧ s'.out_pos = s.out_pos + c) := by
  have htc := ((sanitize_success_iff d.header).1 hv).2.2.2.1
  have hinv := iteration_invariant d.body.data d.body.size
    (d.header.width * d.header.height) d.header.true_channel_count
    d.header.palette_channel_count n pal c hc
  refine ⟨?_, ?_, ?_⟩
  · obtain ⟨flow, hl⟩ := loop_no_fault d.body.data d.body.size
      (d.header.width * d.header.height) d.header.true_channel_count
      d.header.palette_channel_count n pal c hc htc hbody hpal d.body.size ⟨0, []⟩ 0
      (by simp) (by simp)
    cases flow with
    | next s =>
      rw [to_png_of_loop_next d n pal c prior s hv hc hl]
      split
      · exact ⟨_, _, rfl⟩
      · exact ⟨_, _, rfl⟩
    | ret r => exact ⟨_, _, to_png_of_loop_ret d n pal c prior r hv hc hl⟩
  · cases hk : to_png_iteration d.body.data d.body.size
        (d.header.width * d.header.height * c) d.header.true_channel_count
        d.header.palette_channel_count n pal c d.body.size with
    | none => rfl
    | some s =>
      obtain ⟨_, _, i3, i4⟩ := hinv d.body.size s hk
      omega
  · intro k s hk
    obtain ⟨i1, i2, i3, i4⟩ := hinv k s hk
    have hle : (k + 1) * c ≤ d.header.width * d.header.height * c :=
      Nat.mul_le_mul_right c i2
    rw [Nat.add_mul, Nat.one_mul] at hle
    have hout : s.out.length + c ≤ d.header.width * d.header.height * c := by omega
    refine ⟨loop_iteration _ _ _ _ _ _ _ _ k s hk d.body.size (by omega), by omega,
      ⟨?_, ?_, hout, i4⟩,
      body_in_bounds _ _ _ _ _ _ _ _ s hc htc hbody hpal hout i4, ?_⟩
    · simp only [to_png_state.out_pos, i1, Nat.mul_mod_left]
    · simp only [to_png_state.out_pos]
      omega
    · intro s' hb
      exact ⟨body_advances _ _ _ _ _ _ _ _ _ _ hb,
        body_out_exact _ _ _ _ _ _ _ _ _ _ hc hb⟩

/-- Witness of C21: the second iteration of the concrete scenario at 4 output channels
starts with read cursor 2 and write cursor 4. -/
theorem C21_witness :
    to_png_iteration scenario_file.body.data scenario_file.body.size (2 * 1 * 4) 4 4 2
        overworld_palette 4 1
      = some ⟨2, [0xEA, 0x9E, 0x22, 0xFF]⟩ ∧
    (∃ r handle,
      pelx_to_png_f true scenario_file 2 overworld_palette 4 none = Except.ok (r, handle)) ∧
    ((4 : Nat) % 4 = 0 ∧ (4 : Nat) ≤ 2 * 1 * 4 - 4 ∧ (4 : Nat) + 4 ≤ 2 * 1 * 4 ∧
      (2 : Nat) < 7) :=
  ⟨by decide,
   (C21_cursor_invariant scenario_file 2 overworld_palette 4 none (by decide) (by decide)
     (by decide) (by decide)).1,
   ((C21_cursor_invariant scenario_file 2 overworld_palette 4 none (by decide) (by decide)
     (by decide) (by decide)).2.2 1 ⟨2, [0xEA, 0x9E, 0x22, 0xFF]⟩ (by decide)).2.2.1⟩

end Pelx
